import Mathlib

/-
Shallow embedding of the NextcloudBackup incremental-backup program
(nextcloudBackup.py, entry point main.py).

Modelling conventions, at the granularity the program observes them:
  * Paths, commands and log lines are Lean strings.  Python string
    operations (str.replace, str.split, slicing, substring tests) are
    re-implemented below on character lists so that every definition
    reduces inside the kernel.
  * Timestamps are integers (the POSIX time denoted by the %c-formatted
    strings the program reads and writes).  The run log is modelled as
    the list of timestamps of its lines together with the current stream
    position of the open file handle, measured in lines; every write the
    program performs on the run log happens when the position is at the
    end of the file, so line granularity is exact for the reachable states.
  * The error log and the pending-retry log are modelled as the entries
    appended during the run (the pending-retry log additionally as its
    current line contents, since the program reads and truncates it).
  * External effects (subprocess results, os.walk output, mtimes,
    copy failures, existence of the source at failure-handling time) are
    supplied by an environment record of pure functions.
  * sys.exit and uncaught exceptions are modelled with Except; the
    with-statement of main.py runs tearDown even when main raises.
-/

namespace NB

/-- One step list split: split a character list on a pattern, with fuel
so that the definition is structurally recursive and kernel-reducible.
Matches Python str.split for a non-empty separator. -/
def splitAux (pat : List Char) : Nat → List Char → List Char → List (List Char)
  | 0, cur, _ => [cur]
  | _ + 1, cur, [] => [cur]
  | n + 1, cur, c :: rest =>
    if (c :: rest).take pat.length = pat then
      cur :: splitAux pat n [] ((c :: rest).drop pat.length)
    else
      splitAux pat n (cur ++ [c]) rest

/-- Python s.split(pat) for non-empty pat (for empty pat we return [s],
which is never exercised by the program). -/
def strSplitOn (s pat : String) : List String :=
  if pat.data = [] then [s]
  else (splitAux pat.data (s.data.length + 1) [] s.data).map String.mk

/-- Replace every occurrence of a pattern, left to right, non-overlapping,
with fuel for structural recursion.  Matches Python str.replace for a
non-empty pattern. -/
def replaceAux (pat rep : List Char) : Nat → List Char → List Char
  | 0, s => s
  | _ + 1, [] => []
  | n + 1, c :: rest =>
    if (c :: rest).take pat.length = pat then
      rep ++ replaceAux pat rep n ((c :: rest).drop pat.length)
    else
      c :: replaceAux pat rep n rest

/-- Python s.replace(pat, rep); for an empty pattern with rep = "" Python
returns s unchanged, which this definition also does. -/
def strReplace (s pat rep : String) : String :=
  if pat.data = [] then s
  else String.mk (replaceAux pat.data rep.data (s.data.length + 1) s.data)

/-- Python s[:-1]: drop the final character (identity on ""). -/
def strDropLastChar (s : String) : String :=
  String.mk s.data.dropLast

/-- Python `pat in s` substring test, for non-empty pat. -/
def strContains (s pat : String) : Bool :=
  (strSplitOn s pat).length ≠ 1

/-! Constants of class NextcloudBackup. -/

def NEXTCLOUD_DATA : String := "/var/www/nextcloud/data/"

def NEXTCLOUD_DATA_BACKUP : String := "/mnt/nextcloud_backup/"

def NEXTCLOUD_BACKUP_PARTITION : String := "/dev/sdc1"

def IGNORED_FILE_TYPES : List String := ["part"]

/-- The sentinel line seeded into an empty run log
("Tue Jan 29 19:37:23 2000" followed by a newline). -/
def OLD_DUMMY_DATE : String := "Tue Jan 29 19:37:23 2000\n"

/-- POSIX timestamp of the sentinel date, the integer the run-log model
stores for the seeded line. -/
def OLD_DUMMY_DATE_T : Int := 949174643

/-- Final component of NEXTCLOUD_BACKUP_PARTITION,
self.NEXTCLOUD_BACKUP_PARTITION.split('/')[-1] in checkDataExists. -/
def partitionName : String :=
  (strSplitOn NEXTCLOUD_BACKUP_PARTITION "/").getLastD ""

/-- src.replace(NEXTCLOUD_DATA, NEXTCLOUD_DATA_BACKUP): the destination
path the program computes (note: replaces every occurrence). -/
def mirrorPath (src : String) : String :=
  strReplace src NEXTCLOUD_DATA NEXTCLOUD_DATA_BACKUP

/-- src.split('.')[-1] in IGNORED_FILE_TYPES: the copy-loop skip test. -/
def ignoredFile (src : String) : Bool :=
  IGNORED_FILE_TYPES.contains ((strSplitOn src ".").getLastD "")

/-- dst[dst.rfind('/') + 1:]: the text after the last slash (the whole
string when there is no slash, matching rfind - 1 + 1 = 0). -/
def lastComponent (dst : String) : String :=
  (strSplitOn dst "/").getLastD dst

/-- dst.replace(dst[dst.rfind('/') + 1:], ''): the directory string the
program passes to os.makedirs (every occurrence of the final component is
deleted, not only the final one). -/
def destPathOf (dst : String) : String :=
  strReplace dst (lastComponent dst) ""

/-! Run configuration. -/

/-- The argparse namespace fields the program uses.  The isinstance and
hasattr checks of checkArgs are vacuous in this typed embedding. -/
structure Args where
  verbose : Bool
  dry_run : Bool
deriving DecidableEq, Repr

/-- checkArgs: dry run implies verbose (the only mutation the program
ever performs on the configuration). -/
def checkArgs (a : Args) : Args :=
  if a.dry_run then { a with verbose := true } else a

/-! External command results and log records. -/

/-- Raw result of subprocess.Popen(...).communicate(): captured stdout,
stderr and the exit status. -/
structure CmdResult where
  out : String
  err : String
  code : Int
deriving DecidableEq, Repr

/-- A record written to the error log: either a failed external command
or a failed file copy.  The fields are exactly the values interpolated
by the corresponding format strings. -/
inductive ErrEntry where
  | cmd (time command stderr : String)
  | copy (time detail dst : String)
deriving DecidableEq, Repr

/-- The text of an error record, as formatted by executeCommand and by
the copy-loop exception handler. -/
def renderErr : ErrEntry → String
  | ErrEntry.cmd t c e =>
      t ++ ": \x27" ++ c ++ "\x27 returned the following error: \x27" ++ e ++ "\x27"
  | ErrEntry.copy t d dst =>
      t ++ ": caught error \x27" ++ d ++ "\x27 while attempting to copy \x27" ++ dst ++ "\x27"

/-- How a run can abort: sys.exit with a message, sys.exit with an exit
status, an uncaught IndexError (readlines()[-1] on an empty read), or an
uncaught AttributeError (writing to an error log that is not open yet). -/
inductive ExitE where
  | msg (s : String)
  | code (c : Int)
  | indexError
  | attributeError
deriving DecidableEq, Repr

/-- The external world of one run, as pure functions. -/
structure Env where
  /-- Paths that os.path.exists answers true for at the start of the run
  (with the backup partition already mounted, as during the walk). -/
  fs0 : List String
  /-- subprocess behaviour for each shell command. -/
  runCmd : String → CmdResult
  /-- Lines of the run log on disk at startup, as timestamps. -/
  runLog0 : List Int
  /-- Lines of the pending-retry log on disk at startup (newline-stripped). -/
  erroredFiles0 : List String
  /-- Flattened os.walk output: os.path.join(subdir, f) with its mtime. -/
  walkFiles : List (String × Int)
  /-- Whether shutil.copy2 raises for a given source path. -/
  copyFails : String → Bool
  /-- The text of the exception raised for a failing copy. -/
  failMsg : String → String
  /-- Whether os.path.exists(src) holds when a copy failure is handled. -/
  srcExists : String → Bool
  /-- os.path.ismount(NEXTCLOUD_DATA_BACKUP) at startup. -/
  isMounted : Bool
  /-- datetime.datetime.now().strftime('%c') during the run. -/
  nowStr : String
  /-- POSIX timestamp of the same clock reading. -/
  nowT : Int

/-- The mutable state of a run: the object fields of NextcloudBackup plus
the observable traces of its effects. -/
structure St where
  args : Args
  /-- Paths that os.path.exists currently answers true for. -/
  fs : List String
  /-- Lines of the run log (as timestamps). -/
  runLogLines : List Int
  /-- Stream position of the open run-log handle, in lines. -/
  runLogPos : Nat
  /-- Whether the error log handle has been opened yet. -/
  errorOpen : Bool
  /-- Records appended to the error log during this run. -/
  errorLog : List ErrEntry
  /-- Current line contents of the pending-retry log. -/
  erroredFiles : List String
  /-- self.toBackup. -/
  toBackup : List String
  /-- Lines printed to stderr. -/
  stderrLog : List String
  /-- Lines printed to stdout (verbose reporting). -/
  stdoutLog : List String
  /-- shutil.copy2 invocations (src, dst) that completed. -/
  copyCalls : List (String × String)
  /-- os.makedirs invocations. -/
  mkdirCalls : List String
  /-- Shell commands actually spawned. -/
  cmdsRun : List String
deriving DecidableEq, Repr

/-- Result of a whole run: how it ended, and the final state. -/
structure Outcome where
  exit : Option ExitE
  st : St
deriving DecidableEq, Repr

/-- executeCommand: in dry-run mode return '' without spawning anything;
otherwise spawn the command, strip the last character of stdout/stderr,
and on a non-zero exit status write a timestamped record to the error
log, print it to stderr and sys.exit with that status.  When the error
log is not open yet (checkDataExists runs before the logs are opened),
self.error.write raises AttributeError instead. -/
def executeCommand (env : Env) (st : St) (command : String) :
    Except (ExitE × St) (String × St) :=
  if st.args.dry_run then Except.ok ("", st)
  else
    let r := env.runCmd command
    let st1 := { st with cmdsRun := st.cmdsRun ++ [command] }
    if r.code ≠ 0 then
      if st1.errorOpen then
        let entry := ErrEntry.cmd env.nowStr command (strDropLastChar r.err)
        Except.error (ExitE.code r.code,
          { st1 with
            errorLog := st1.errorLog ++ [entry],
            stderrLog := st1.stderrLog ++ [renderErr entry] })
      else
        Except.error (ExitE.attributeError, st1)
    else Except.ok (strDropLastChar r.out, st1)

def msgDataMissing : String :=
  "Error: Nextcloud data directory \x27" ++ NEXTCLOUD_DATA ++ "\x27 does not exist"

def msgBackupMissing : String :=
  "Error: Nextcloud backup mount point \x27" ++ NEXTCLOUD_DATA_BACKUP ++ "\x27 does not exist"

def msgPartitionMissing : String :=
  "Error: Nextcloud backup partition \x27" ++ NEXTCLOUD_BACKUP_PARTITION ++ "\x27 does not exist"

/-- checkDataExists: verify the data directory, the backup mount point,
and that the partition name occurs in the output of lsblk -l. -/
def checkDataExists (env : Env) (st : St) : Except (ExitE × St) St :=
  if !(st.fs.contains NEXTCLOUD_DATA) then
    Except.error (ExitE.msg msgDataMissing, st)
  else if !(st.fs.contains NEXTCLOUD_DATA_BACKUP) then
    Except.error (ExitE.msg msgBackupMissing, st)
  else
    match executeCommand env st "lsblk -l" with
    | Except.error es => Except.error es
    | Except.ok (out, st1) =>
      if !(strContains out partitionName) then
        Except.error (ExitE.msg msgPartitionMissing, st1)
      else Except.ok st1

/-- Sequencing of statements that may sys.exit: propagate an exit, or
continue with the state. -/
def andThen (x : Except (ExitE × St) St) (f : St → Except (ExitE × St) St) :
    Except (ExitE × St) St :=
  match x with
  | Except.error es => Except.error es
  | Except.ok st => f st

/-- Run a command for its effect, discarding the captured output. -/
def execDrop (env : Env) (c : String) (st : St) : Except (ExitE × St) St :=
  match executeCommand env st c with
  | Except.error es => Except.error es
  | Except.ok (_, st1) => Except.ok st1

/-- The state carried by a phase result, whether it exited or not. -/
def stOf : Except (ExitE × St) St → St
  | Except.error (_, st) => st
  | Except.ok st => st

/-- The state carried by an executeCommand result. -/
def stOfE : Except (ExitE × St) (String × St) → St
  | Except.error (_, st) => st
  | Except.ok (_, st) => st

/-- mountBackupPartition: unmount whatever sits at the mount point,
unmount the partition if it is mounted elsewhere, then mount it. -/
def mountBackupPartition (env : Env) (st : St) : Except (ExitE × St) St :=
  andThen
    (if env.isMounted then execDrop env ("umount " ++ NEXTCLOUD_DATA_BACKUP) st
     else Except.ok st)
    (fun st1 =>
      match executeCommand env st1 "mount -l" with
      | Except.error es => Except.error es
      | Except.ok (out, st2) =>
        andThen
          (if strContains out NEXTCLOUD_BACKUP_PARTITION then
            execDrop env ("umount " ++ NEXTCLOUD_BACKUP_PARTITION) st2
           else Except.ok st2)
          (fun st3 =>
            execDrop env
              ("mount " ++ NEXTCLOUD_BACKUP_PARTITION ++ " " ++ NEXTCLOUD_DATA_BACKUP)
              st3))

/-- Opening the three logs: their current contents become visible to the
object and the error log handle now exists. -/
def openLogsSt (env : Env) (st1 : St) : St :=
  { st1 with runLogLines := env.runLog0, runLogPos := 0,
             erroredFiles := env.erroredFiles0, errorOpen := true }

/-- If the run log is empty, write the sentinel date; the write leaves
the stream position after the written line. -/
def seedRunLogSt (st : St) : St :=
  if st.runLogLines.isEmpty then
    { st with runLogLines := [OLD_DUMMY_DATE_T], runLogPos := 1 }
  else st

/-- If the pending-retry log is non-empty, its lines become toBackup and
the log is truncated to empty. -/
def seedRetriesSt (st : St) : St :=
  if st.erroredFiles.isEmpty then st
  else { st with toBackup := st.erroredFiles, erroredFiles := [] }

/-- NextcloudBackup.__init__: validate the configuration, check the data
locations, open the logs, seed them, then mount. -/
def initNB (env : Env) (a : Args) : Except (ExitE × St) St :=
  let args := checkArgs a
  let st0 : St :=
    { args := args, fs := env.fs0, runLogLines := [], runLogPos := 0,
      errorOpen := false, errorLog := [], erroredFiles := [], toBackup := [],
      stderrLog := [], stdoutLog := [], copyCalls := [], mkdirCalls := [],
      cmdsRun := [] }
  andThen (checkDataExists env st0) (fun st1 =>
    mountBackupPartition env (seedRetriesSt (seedRunLogSt (openLogsSt env st1))))

/-- The walk loop of main: append path when its mtime is strictly later
than lastBackup or no file exists at the mirrored destination. -/
def computeToBackup (walk : List (String × Int)) (t : Int) (fs : List String)
    (acc : List String) : List String :=
  match walk with
  | [] => acc
  | (p, m) :: rest =>
    computeToBackup rest t fs
      (if decide (t < m) || !(fs.contains (mirrorPath p)) then acc ++ [p] else acc)

/-- The change set after the walk: the pending-retry seed extended by the
walk loop. -/
def buildChangeSet (walk : List (String × Int)) (t : Int) (fs : List String)
    (seed : List String) : List String :=
  computeToBackup walk t fs seed

def mkCreatingMsg (destPath : String) : String :=
  "creating \x27" ++ destPath ++ "\x27"

def mkCopyMsg (src dst : String) : String :=
  "\x27" ++ src ++ "\x27 --> \x27" ++ dst ++ "\x27"

/-- The directory-creation step of one copy-loop iteration: when the
makedirs argument does not exist, report it in verbose mode, record the
os.makedirs call (exist_ok=True, modelled total) and add the path. -/
def mkdirPhase (st : St) (destPath : String) : St :=
  if st.fs.contains destPath then st
  else
    let stv :=
      if st.args.verbose then
        { st with stdoutLog := st.stdoutLog ++ [mkCreatingMsg destPath] }
      else st
    { stv with mkdirCalls := stv.mkdirCalls ++ [destPath],
               fs := stv.fs ++ [destPath] }

/-- The verbose report printed inside the try block before the copy. -/
def printPhase (st : St) (src dst : String) : St :=
  if st.args.verbose then
    { st with stdoutLog := st.stdoutLog ++ [mkCopyMsg src dst] }
  else st

/-- The exception handler of the copy loop: record the error, print it
to stderr, and append the source to the pending-retry log when the
source still exists on disk. -/
def failPhase (env : Env) (st : St) (src dst : String) : St :=
  let entry := ErrEntry.copy env.nowStr (env.failMsg src) dst
  let st3 :=
    { st with errorLog := st.errorLog ++ [entry],
              stderrLog := st.stderrLog ++ [renderErr entry] }
  if env.srcExists src then
    { st3 with erroredFiles := st3.erroredFiles ++ [src] }
  else st3

/-- One iteration of the copy loop: skip ignored extensions, compute the
destination and its makedirs argument, create the latter when missing,
print in verbose mode, copy unless dry run, and on a copy failure run
the exception handler. -/
def copyStep (env : Env) (st : St) (src : String) : St :=
  if ignoredFile src then st
  else
    let dst := mirrorPath src
    let st2 := printPhase (mkdirPhase st (destPathOf dst)) src dst
    if st2.args.dry_run then st2
    else if env.copyFails src then failPhase env st2 src dst
    else
      { st2 with copyCalls := st2.copyCalls ++ [(src, dst)],
                 fs := st2.fs ++ [dst] }

/-- The copy loop over the whole change set. -/
def copyAll (env : Env) (st : St) (srcs : List String) : St :=
  srcs.foldl (copyStep env) st

/-- The body of main once the last-run timestamp has been parsed: extend
toBackup by the walk, then run the copy loop over it (the readlines call
has moved the run-log position to end of file). -/
def mainCopy (env : Env) (st : St) (t : Int) : St :=
  copyAll env
    { st with runLogPos := st.runLogLines.length,
              toBackup := buildChangeSet env.walkFiles t st.fs st.toBackup }
    (buildChangeSet env.walkFiles t st.fs st.toBackup)

/-- NextcloudBackup.main: parse the last line the run-log handle can still
read (readlines moves the position to end of file; an empty read raises
IndexError), extend toBackup by the walk, then run the copy loop. -/
def mainNB (env : Env) (st : St) : Except (ExitE × St) St :=
  match (st.runLogLines.drop st.runLogPos).getLast? with
  | none =>
    Except.error (ExitE.indexError, { st with runLogPos := st.runLogLines.length })
  | some t => Except.ok (mainCopy env st t)

/-- tearDown: unmount, spin the drive down, append the current time to
the run log unless the run is a dry run, close the logs. -/
def tearDownNB (env : Env) (st : St) : Except (ExitE × St) St :=
  andThen (execDrop env ("umount " ++ NEXTCLOUD_BACKUP_PARTITION) st) (fun st1 =>
    andThen (execDrop env ("hdparm -y " ++ NEXTCLOUD_BACKUP_PARTITION) st1) (fun st2 =>
      Except.ok
        (if st2.args.dry_run then st2
         else { st2 with runLogLines := st2.runLogLines ++ [env.nowT],
                         runLogPos := st2.runLogPos + 1 })))

/-- main.py: construct the object (init), run main inside the context
manager, and run tearDown on every exit path of the with-block; an
exception raised by main still propagates after tearDown succeeds. -/
def fullRun (env : Env) (a : Args) : Outcome :=
  match initNB env a with
  | Except.error (e, st) => { exit := some e, st := st }
  | Except.ok st =>
    match mainNB env st with
    | Except.ok st1 =>
      match tearDownNB env st1 with
      | Except.error (e, st2) => { exit := some e, st := st2 }
      | Except.ok st2 => { exit := none, st := st2 }
    | Except.error (e, st1) =>
      match tearDownNB env st1 with
      | Except.error (e2, st2) => { exit := some e2, st := st2 }
      | Except.ok st2 => { exit := some e, st := st2 }

/-- The change set a subsequent run would compute from the persisted
artifacts of a finished run: its run-log lines (read from position 0 of
a freshly opened handle), its pending-retry lines as the seed, and the
destination tree it left behind. -/
def nextRunChangeSet (runLog : List Int) (seed : List String)
    (walk : List (String × Int)) (fs : List String) : Option (List String) :=
  (runLog.getLast?).map (fun t => buildChangeSet walk t fs seed)

/-! Concrete fixtures used to instantiate the theorems below. -/

/-- A subprocess oracle where every command succeeds and lsblk lists the
backup partition. -/
def okCmd : String → CmdResult :=
  fun _ => { out := "sdc1\n", err := "", code := 0 }

/-- A baseline environment: data directory and mount point present, run
log holding one timestamp, no pending retries, empty source tree. -/
def baseEnv : Env :=
  { fs0 := [NEXTCLOUD_DATA, NEXTCLOUD_DATA_BACKUP],
    runCmd := okCmd,
    runLog0 := [5],
    erroredFiles0 := [],
    walkFiles := [],
    copyFails := fun _ => false,
    failMsg := fun _ => "FAKE ERROR",
    srcExists := fun _ => true,
    isMounted := false,
    nowStr := "Sat Sep  1 22:07:16 2018",
    nowT := 10 }

/-- A baseline mid-run state with the logs open. -/
def baseSt : St :=
  { args := { verbose := false, dry_run := false },
    fs := [NEXTCLOUD_DATA, NEXTCLOUD_DATA_BACKUP],
    runLogLines := [5], runLogPos := 1,
    errorOpen := true, errorLog := [], erroredFiles := [], toBackup := [],
    stderrLog := [], stdoutLog := [], copyCalls := [], mkdirCalls := [],
    cmdsRun := [] }

/-- An environment whose commands all fail with exit status 2. -/
def envFail : Env :=
  { baseEnv with runCmd := fun _ => { out := "", err := "boom\n", code := 2 } }

/-- An environment in which every copy raises. -/
def envCopyFail : Env :=
  { baseEnv with copyFails := fun _ => true }

/-- Modelled from the spec wording (destination path = source path with
the source root replaced by the mirror root, read as replacing the
leading occurrence only): used to compare with the replace-everywhere
behaviour of the code. -/
def specMirrorRoot (src : String) : String :=
  NEXTCLOUD_DATA_BACKUP ++ String.mk (src.data.drop NEXTCLOUD_DATA.data.length)

/-- Modelled from the spec wording (the parent directory of the
destination): everything up to and including the final slash. -/
def specParentDir (dst : String) : String :=
  String.mk (dst.data.take (dst.data.length - (lastComponent dst).data.length))

/-- An ordinary source file. -/
def pTxt : String := NEXTCLOUD_DATA ++ "u/f.txt"

/-- A second ordinary source file. -/
def pTxt2 : String := NEXTCLOUD_DATA ++ "u/g.txt"

/-- An environment in which only the copy of pTxt raises. -/
def envOneFail : Env :=
  { baseEnv with copyFails := fun s => s == NEXTCLOUD_DATA ++ "u/f.txt" }

/-- A source file with an ignored extension. -/
def pPart : String := NEXTCLOUD_DATA ++ "u/v.part"

/-- A file named a inside a directory named a: its final path component
occurs elsewhere in its destination path. -/
def pAA : String := NEXTCLOUD_DATA ++ "a/a"

/-- A source path containing the source-root string a second time, deep
in the tree. -/
def pNested : String := NEXTCLOUD_DATA ++ "backup" ++ NEXTCLOUD_DATA ++ "f.txt"

/-- Fields no external command invocation can change. -/
def CmdFrame (a b : St) : Prop :=
  a.args = b.args ∧ a.fs = b.fs ∧ a.runLogLines = b.runLogLines ∧
  a.runLogPos = b.runLogPos ∧ a.errorOpen = b.errorOpen ∧
  a.erroredFiles = b.erroredFiles ∧ a.toBackup = b.toBackup ∧
  a.copyCalls = b.copyCalls ∧ a.mkdirCalls = b.mkdirCalls ∧
  a.stdoutLog = b.stdoutLog

/-- The state the copy-loop body has built when it reaches the try block. -/
def preSt (st : St) (src : String) : St :=
  printPhase (mkdirPhase st (destPathOf (mirrorPath src))) src (mirrorPath src)

/-- The exit taken by a failed initialization, if any. -/
def initExit : Except (ExitE × St) St → Option ExitE
  | Except.error (e, _) => some e
  | Except.ok _ => none

/-- The state carried by a failed initialization, if any. -/
def initExitSt : Except (ExitE × St) St → Option St
  | Except.error (_, s) => some s
  | Except.ok _ => none

/-- An ordinary run configuration. -/
def argsReal : Args := { verbose := false, dry_run := false }

/-- A dry-run configuration. -/
def argsDry : Args := { verbose := false, dry_run := true }

/-- An environment whose pending-retry log holds one path. -/
def envRetry : Env :=
  { baseEnv with erroredFiles0 := [NEXTCLOUD_DATA ++ "u/f.txt"] }

/-- The state initNB produces in envRetry with argsReal. -/
def stInitRetry : St :=
  { args := { verbose := false, dry_run := false },
    fs := [NEXTCLOUD_DATA, NEXTCLOUD_DATA_BACKUP],
    runLogLines := [5], runLogPos := 0,
    errorOpen := true, errorLog := [],
    erroredFiles := [], toBackup := [NEXTCLOUD_DATA ++ "u/f.txt"],
    stderrLog := [], stdoutLog := [], copyCalls := [], mkdirCalls := [],
    cmdsRun := ["lsblk -l", "mount -l",
      "mount " ++ NEXTCLOUD_BACKUP_PARTITION ++ " " ++ NEXTCLOUD_DATA_BACKUP] }

/-- A very first run: the run log is empty and the source tree holds one
ordinary file. -/
def envFirstRun : Env :=
  { baseEnv with
    runLog0 := []
    walkFiles := [(NEXTCLOUD_DATA ++ "u/f.txt", 5)]
    fs0 := [NEXTCLOUD_DATA, NEXTCLOUD_DATA_BACKUP, NEXTCLOUD_DATA ++ "u/f.txt"] }

/-- A world for a successful run: one ordinary modified file. -/
def envTwoRuns : Env :=
  { baseEnv with
    runLog0 := [3]
    walkFiles := [(NEXTCLOUD_DATA ++ "u/f.txt", 5)]
    fs0 := [NEXTCLOUD_DATA, NEXTCLOUD_DATA_BACKUP, NEXTCLOUD_DATA ++ "u/f.txt"] }

/-- The state a full run leaves behind in envTwoRuns with argsReal. -/
def stTwoRuns : St :=
  { args := { verbose := false, dry_run := false },
    fs := [NEXTCLOUD_DATA, NEXTCLOUD_DATA_BACKUP, NEXTCLOUD_DATA ++ "u/f.txt",
      NEXTCLOUD_DATA_BACKUP ++ "u/", NEXTCLOUD_DATA_BACKUP ++ "u/f.txt"],
    runLogLines := [3, 10], runLogPos := 2,
    errorOpen := true, errorLog := [], erroredFiles := [],
    toBackup := [NEXTCLOUD_DATA ++ "u/f.txt"],
    stderrLog := [], stdoutLog := [],
    copyCalls := [(NEXTCLOUD_DATA ++ "u/f.txt", NEXTCLOUD_DATA_BACKUP ++ "u/f.txt")],
    mkdirCalls := [NEXTCLOUD_DATA_BACKUP ++ "u/"],
    cmdsRun := ["lsblk -l", "mount -l",
      "mount " ++ NEXTCLOUD_BACKUP_PARTITION ++ " " ++ NEXTCLOUD_DATA_BACKUP,
      "umount " ++ NEXTCLOUD_BACKUP_PARTITION,
      "hdparm -y " ++ NEXTCLOUD_BACKUP_PARTITION] }

/-- A world holding only an ignored-extension file with an old mtime and
no mirrored counterpart. -/
def envIgnoredOnly : Env :=
  { baseEnv with
    runLog0 := [5]
    walkFiles := [(NEXTCLOUD_DATA ++ "u/v.part", 3)]
    fs0 := [NEXTCLOUD_DATA, NEXTCLOUD_DATA_BACKUP, NEXTCLOUD_DATA ++ "u/v.part"] }

end NB

namespace NB

/-! Shared lemmas about the walk loop. -/

theorem computeToBackup_acc (walk : List (String × Int)) (t : Int)
    (fs : List String) :
    ∀ acc, computeToBackup walk t fs acc = acc ++ computeToBackup walk t fs [] := by
  induction walk with
  | nil => intro acc; simp [computeToBackup]
  | cons hd tl ih =>
    intro acc
    obtain ⟨p, m⟩ := hd
    simp only [computeToBackup]
    by_cases hc : (decide (t < m) || !(fs.contains (mirrorPath p))) = true
    · rw [if_pos hc, if_pos hc, ih (acc ++ [p]), ih ([] ++ [p])]
      simp
    · rw [if_neg hc, if_neg hc, ih acc]

theorem mem_computeToBackup (t : Int) (fs : List String) (p : String) :
    ∀ walk : List (String × Int),
      p ∈ computeToBackup walk t fs [] ↔
        ∃ m, (p, m) ∈ walk ∧ (t < m ∨ fs.contains (mirrorPath p) = false) := by
  intro walk
  induction walk with
  | nil => simp [computeToBackup]
  | cons hd tl ih =>
    obtain ⟨q, m⟩ := hd
    simp only [computeToBackup]
    rw [computeToBackup_acc]
    by_cases hc : (decide (t < m) || !(fs.contains (mirrorPath q))) = true
    · rw [if_pos hc]
      simp only [List.nil_append, List.mem_append, List.mem_singleton, ih,
        List.mem_cons, Prod.mk.injEq, List.not_mem_nil, or_false]
      constructor
      · rintro (hpq | ⟨m', hm', hcond⟩)
        · subst hpq
          refine ⟨m, Or.inl ⟨rfl, rfl⟩, ?_⟩
          simpa [Bool.or_eq_true, decide_eq_true_eq, Bool.not_eq_true'] using hc
        · exact ⟨m', Or.inr hm', hcond⟩
      · rintro ⟨m', (⟨hp, hm⟩ | hm'), hcond⟩
        · exact Or.inl hp
        · exact Or.inr ⟨m', hm', hcond⟩
    · rw [if_neg hc]
      simp only [List.nil_append, ih, List.mem_cons, Prod.mk.injEq]
      constructor
      · rintro ⟨m', hm', hcond⟩
        exact ⟨m', Or.inr hm', hcond⟩
      · rintro ⟨m', (⟨hp, hm⟩ | hm'), hcond⟩
        · exfalso
          apply hc
          subst hp; subst hm
          simpa [Bool.or_eq_true, decide_eq_true_eq, Bool.not_eq_true'] using hcond
        · exact ⟨m', hm', hcond⟩

theorem nodup_key : ∀ (l : List (String × Int)) (p : String) (m m' : Int),
    (l.map Prod.fst).Nodup → (p, m) ∈ l → (p, m') ∈ l → m = m' := by
  intro l
  induction l with
  | nil => simp
  | cons hd tl ih =>
    intro p m m' hnd h1 h2
    simp only [List.map_cons, List.nodup_cons] at hnd
    rcases List.mem_cons.mp h1 with g1 | g1 <;> rcases List.mem_cons.mp h2 with g2 | g2
    · subst g1
      injection g2 with g2a g2b
      exact g2b.symm
    · subst g1
      have h : ∀ x : Int, (p, x) ∉ tl := by simpa using hnd.1
      exact absurd g2 (h m')
    · subst g2
      have h : ∀ x : Int, (p, x) ∉ tl := by simpa using hnd.1
      exact absurd g1 (h m)
    · exact ih p m m' hnd.2 g1 g2

/-- C1: for a file found by the walk (walk paths are distinct), the walk
loop appends it to the change set iff its mtime is strictly later than
the last-run timestamp or no file exists at its mirrored destination;
the full change set is the pending-retry seed followed by exactly these
walk additions. -/
theorem c1_walk_membership (walk : List (String × Int)) (t : Int)
    (fs seed : List String) (p : String) (m : Int)
    (hnd : (walk.map Prod.fst).Nodup) (hmem : (p, m) ∈ walk) :
    buildChangeSet walk t fs seed = seed ++ computeToBackup walk t fs [] ∧
    (p ∈ computeToBackup walk t fs [] ↔
      (t < m ∨ fs.contains (mirrorPath p) = false)) := by
  constructor
  · exact computeToBackup_acc walk t fs seed
  · rw [mem_computeToBackup]
    constructor
    · rintro ⟨m', hm', hcond⟩
      rwa [nodup_key walk p m' m hnd hm' hmem] at hcond
    · intro hcond
      exact ⟨m, hmem, hcond⟩

/-- Witness for C1 at a one-file walk. -/
theorem c1_walk_membership_witness :
    buildChangeSet [(pTxt, 7)] 5 [] [] = [] ++ computeToBackup [(pTxt, 7)] 5 [] [] ∧
    (pTxt ∈ computeToBackup [(pTxt, 7)] 5 [] [] ↔
      ((5 : Int) < 7 ∨ ([] : List String).contains (mirrorPath pTxt) = false)) :=
  c1_walk_membership [(pTxt, 7)] 5 [] [] pTxt 7 (by decide) (by decide)

/-- Counterexample for C1 as stated: a file found by the walk with mtime
not later than the last-run timestamp and with an existing mirrored
counterpart is nevertheless in the change set, because the change set is
seeded from the pending-retry log. -/
theorem c1_counterexample :
    buildChangeSet [(pTxt, 0)] 5 [mirrorPath pTxt] [pTxt] = [pTxt] ∧
    ¬((5 : Int) < 0) ∧
    [mirrorPath pTxt].contains (mirrorPath pTxt) = true := by
  refine ⟨by decide, by decide, by decide⟩

/-! Frame lemmas: the state fields each phase leaves unchanged. -/

/-- Fields no external command invocation can change. -/
theorem cmdFrame_refl (a : St) : CmdFrame a a :=
  ⟨rfl, rfl, rfl, rfl, rfl, rfl, rfl, rfl, rfl, rfl⟩

theorem cmdFrame_trans {a b c : St} (h1 : CmdFrame a b) (h2 : CmdFrame b c) :
    CmdFrame a c := by
  obtain ⟨x1, x2, x3, x4, x5, x6, x7, x8, x9, x10⟩ := h1
  obtain ⟨y1, y2, y3, y4, y5, y6, y7, y8, y9, y10⟩ := h2
  exact ⟨x1.trans y1, x2.trans y2, x3.trans y3, x4.trans y4, x5.trans y5,
    x6.trans y6, x7.trans y7, x8.trans y8, x9.trans y9, x10.trans y10⟩

theorem exec_frame (env : Env) (st : St) (c : String) :
    CmdFrame (stOfE (executeCommand env st c)) st := by
  simp only [executeCommand]
  split_ifs <;> simp [stOfE, CmdFrame]

theorem execDrop_frame (env : Env) (c : String) (st : St) :
    CmdFrame (stOf (execDrop env c st)) st := by
  have h := exec_frame env st c
  unfold execDrop
  cases hE : executeCommand env st c with
  | error es =>
    obtain ⟨e, s⟩ := es
    rw [hE] at h
    simpa [stOf, stOfE] using h
  | ok os =>
    obtain ⟨o, s⟩ := os
    rw [hE] at h
    simpa [stOf, stOfE] using h

theorem andThen_frame {x : Except (ExitE × St) St} {f : St → Except (ExitE × St) St}
    {st : St} (hx : CmdFrame (stOf x) st) (hf : ∀ s, CmdFrame (stOf (f s)) s) :
    CmdFrame (stOf (andThen x f)) st := by
  cases x with
  | error es => simpa [andThen, stOf] using hx
  | ok s =>
    have hs : CmdFrame s st := by simpa [stOf] using hx
    exact cmdFrame_trans (by simpa [andThen] using hf s) hs

theorem checkData_frame (env : Env) (st : St) :
    CmdFrame (stOf (checkDataExists env st)) st := by
  unfold checkDataExists
  by_cases h1 : (!(st.fs.contains NEXTCLOUD_DATA)) = true
  · rw [if_pos h1]; exact cmdFrame_refl st
  · rw [if_neg h1]
    by_cases h2 : (!(st.fs.contains NEXTCLOUD_DATA_BACKUP)) = true
    · rw [if_pos h2]; exact cmdFrame_refl st
    · rw [if_neg h2]
      have h := exec_frame env st "lsblk -l"
      cases hE : executeCommand env st "lsblk -l" with
      | error es =>
        obtain ⟨e, s⟩ := es
        rw [hE] at h
        simpa [stOf, stOfE] using h
      | ok os =>
        obtain ⟨o, s⟩ := os
        rw [hE] at h
        simp only [stOfE] at h
        dsimp only
        split_ifs <;> simpa [stOf] using h

theorem mount_frame (env : Env) (st : St) :
    CmdFrame (stOf (mountBackupPartition env st)) st := by
  unfold mountBackupPartition
  apply andThen_frame
  · split_ifs
    · exact execDrop_frame env _ st
    · exact cmdFrame_refl st
  · intro s1
    have h := exec_frame env s1 "mount -l"
    cases hE : executeCommand env s1 "mount -l" with
    | error es =>
      obtain ⟨e, s⟩ := es
      rw [hE] at h
      simpa [stOf, stOfE] using h
    | ok os =>
      obtain ⟨o, s2⟩ := os
      rw [hE] at h
      simp only [stOfE] at h
      refine cmdFrame_trans (andThen_frame ?_ ?_) h
      · split_ifs
        · exact execDrop_frame env _ s2
        · exact cmdFrame_refl s2
      · intro s3
        exact execDrop_frame env _ s3

theorem mkdirPhase_fields (st : St) (dp : String) :
    (mkdirPhase st dp).args = st.args ∧
    (mkdirPhase st dp).runLogLines = st.runLogLines ∧
    (mkdirPhase st dp).runLogPos = st.runLogPos ∧
    (mkdirPhase st dp).toBackup = st.toBackup ∧
    (mkdirPhase st dp).errorOpen = st.errorOpen ∧
    (mkdirPhase st dp).cmdsRun = st.cmdsRun ∧
    (mkdirPhase st dp).errorLog = st.errorLog ∧
    (mkdirPhase st dp).erroredFiles = st.erroredFiles ∧
    (mkdirPhase st dp).copyCalls = st.copyCalls ∧
    (mkdirPhase st dp).stderrLog = st.stderrLog ∧
    (mkdirPhase st dp).mkdirCalls =
      st.mkdirCalls ++ (if st.fs.contains dp then [] else [dp]) ∧
    (mkdirPhase st dp).fs = st.fs ++ (if st.fs.contains dp then [] else [dp]) := by
  simp only [mkdirPhase]
  split_ifs <;> simp_all

theorem printPhase_fields (st : St) (src dst : String) :
    (printPhase st src dst).args = st.args ∧
    (printPhase st src dst).runLogLines = st.runLogLines ∧
    (printPhase st src dst).runLogPos = st.runLogPos ∧
    (printPhase st src dst).toBackup = st.toBackup ∧
    (printPhase st src dst).errorOpen = st.errorOpen ∧
    (printPhase st src dst).cmdsRun = st.cmdsRun ∧
    (printPhase st src dst).errorLog = st.errorLog ∧
    (printPhase st src dst).erroredFiles = st.erroredFiles ∧
    (printPhase st src dst).copyCalls = st.copyCalls ∧
    (printPhase st src dst).stderrLog = st.stderrLog ∧
    (printPhase st src dst).mkdirCalls = st.mkdirCalls ∧
    (printPhase st src dst).fs = st.fs := by
  simp only [printPhase]
  split_ifs <;> simp_all

theorem failPhase_fields (env : Env) (st : St) (src dst : String) :
    (failPhase env st src dst).args = st.args ∧
    (failPhase env st src dst).runLogLines = st.runLogLines ∧
    (failPhase env st src dst).runLogPos = st.runLogPos ∧
    (failPhase env st src dst).toBackup = st.toBackup ∧
    (failPhase env st src dst).errorOpen = st.errorOpen ∧
    (failPhase env st src dst).cmdsRun = st.cmdsRun ∧
    (failPhase env st src dst).errorLog =
      st.errorLog ++ [ErrEntry.copy env.nowStr (env.failMsg src) dst] ∧
    (failPhase env st src dst).erroredFiles =
      st.erroredFiles ++ (if env.srcExists src then [src] else []) ∧
    (failPhase env st src dst).copyCalls = st.copyCalls ∧
    (failPhase env st src dst).stderrLog =
      st.stderrLog ++ [renderErr (ErrEntry.copy env.nowStr (env.failMsg src) dst)] ∧
    (failPhase env st src dst).mkdirCalls = st.mkdirCalls ∧
    (failPhase env st src dst).fs = st.fs := by
  simp only [failPhase]
  split_ifs <;> simp_all

theorem preSt_fields (st : St) (src : String) :
    (preSt st src).args = st.args ∧
    (preSt st src).runLogLines = st.runLogLines ∧
    (preSt st src).runLogPos = st.runLogPos ∧
    (preSt st src).toBackup = st.toBackup ∧
    (preSt st src).errorOpen = st.errorOpen ∧
    (preSt st src).cmdsRun = st.cmdsRun ∧
    (preSt st src).errorLog = st.errorLog ∧
    (preSt st src).erroredFiles = st.erroredFiles ∧
    (preSt st src).copyCalls = st.copyCalls ∧
    (preSt st src).stderrLog = st.stderrLog ∧
    (preSt st src).mkdirCalls =
      st.mkdirCalls ++
        (if st.fs.contains (destPathOf (mirrorPath src)) then []
         else [destPathOf (mirrorPath src)]) ∧
    (preSt st src).fs =
      st.fs ++
        (if st.fs.contains (destPathOf (mirrorPath src)) then []
         else [destPathOf (mirrorPath src)]) := by
  have hm := mkdirPhase_fields st (destPathOf (mirrorPath src))
  have hp := printPhase_fields (mkdirPhase st (destPathOf (mirrorPath src))) src
    (mirrorPath src)
  unfold preSt
  obtain ⟨m1, m2, m3, m4, m5, m6, m7, m8, m9, m10, m11, m12⟩ := hm
  obtain ⟨p1, p2, p3, p4, p5, p6, p7, p8, p9, p10, p11, p12⟩ := hp
  exact ⟨p1.trans m1, p2.trans m2, p3.trans m3, p4.trans m4, p5.trans m5,
    p6.trans m6, p7.trans m7, p8.trans m8, p9.trans m9, p10.trans m10,
    p11.trans m11, p12.trans m12⟩

/-- Unfolding of an iteration on a non-ignored file in a real run. -/
theorem copyStep_eq (env : Env) (st : St) (src : String)
    (hig : ignoredFile src = false) (hdry : st.args.dry_run = false) :
    copyStep env st src =
      (if env.copyFails src then failPhase env (preSt st src) src (mirrorPath src)
       else
         { preSt st src with
           copyCalls := (preSt st src).copyCalls ++ [(src, mirrorPath src)],
           fs := (preSt st src).fs ++ [mirrorPath src] }) := by
  have hd2 : (printPhase (mkdirPhase st (destPathOf (mirrorPath src))) src
      (mirrorPath src)).args.dry_run = false := by
    have h := (preSt_fields st src).1
    rw [show preSt st src =
      printPhase (mkdirPhase st (destPathOf (mirrorPath src))) src (mirrorPath src)
      from rfl] at h
    rw [h]; exact hdry
  unfold copyStep
  rw [if_neg (by simp [hig])]
  dsimp only
  rw [if_neg (by simp [hd2])]
  rfl

/-- Unfolding of an iteration on a non-ignored file in a dry run. -/
theorem copyStep_eq_dry (env : Env) (st : St) (src : String)
    (hig : ignoredFile src = false) (hdry : st.args.dry_run = true) :
    copyStep env st src = preSt st src := by
  have hd2 : (printPhase (mkdirPhase st (destPathOf (mirrorPath src))) src
      (mirrorPath src)).args.dry_run = true := by
    have h := (preSt_fields st src).1
    rw [show preSt st src =
      printPhase (mkdirPhase st (destPathOf (mirrorPath src))) src (mirrorPath src)
      from rfl] at h
    rw [h]; exact hdry
  unfold copyStep
  rw [if_neg (by simp [hig])]
  dsimp only
  rw [if_pos hd2]
  rfl

theorem copyStep_frame (env : Env) (st : St) (src : String) :
    (copyStep env st src).args = st.args ∧
    (copyStep env st src).runLogLines = st.runLogLines ∧
    (copyStep env st src).runLogPos = st.runLogPos ∧
    (copyStep env st src).toBackup = st.toBackup ∧
    (copyStep env st src).errorOpen = st.errorOpen ∧
    (copyStep env st src).cmdsRun = st.cmdsRun := by
  have hpre := preSt_fields st src
  by_cases hig : ignoredFile src
  · simp [copyStep, hig]
  · simp only [Bool.not_eq_true] at hig
    by_cases hdry : st.args.dry_run
    · rw [copyStep_eq_dry env st src hig hdry]
      exact ⟨hpre.1, hpre.2.1, hpre.2.2.1, hpre.2.2.2.1, hpre.2.2.2.2.1,
        hpre.2.2.2.2.2.1⟩
    · simp only [Bool.not_eq_true] at hdry
      rw [copyStep_eq env st src hig hdry]
      have hfail := failPhase_fields env (preSt st src) src (mirrorPath src)
      split_ifs
      · exact ⟨hfail.1.trans hpre.1,
          hfail.2.1.trans hpre.2.1,
          hfail.2.2.1.trans hpre.2.2.1,
          hfail.2.2.2.1.trans hpre.2.2.2.1,
          hfail.2.2.2.2.1.trans hpre.2.2.2.2.1,
          hfail.2.2.2.2.2.1.trans hpre.2.2.2.2.2.1⟩
      · exact ⟨hpre.1, hpre.2.1, hpre.2.2.1, hpre.2.2.2.1, hpre.2.2.2.2.1,
          hpre.2.2.2.2.2.1⟩

theorem copyAll_frame (env : Env) (srcs : List String) :
    ∀ st : St,
      (copyAll env st srcs).args = st.args ∧
      (copyAll env st srcs).runLogLines = st.runLogLines ∧
      (copyAll env st srcs).runLogPos = st.runLogPos ∧
      (copyAll env st srcs).toBackup = st.toBackup ∧
      (copyAll env st srcs).errorOpen = st.errorOpen ∧
      (copyAll env st srcs).cmdsRun = st.cmdsRun := by
  induction srcs with
  | nil => intro st; exact ⟨rfl, rfl, rfl, rfl, rfl, rfl⟩
  | cons s rest ih =>
    intro st
    have h1 := copyStep_frame env st s
    have h2 := ih (copyStep env st s)
    simp only [copyAll, List.foldl_cons] at h2 ⊢
    exact ⟨h2.1.trans h1.1, h2.2.1.trans h1.2.1, h2.2.2.1.trans h1.2.2.1,
      h2.2.2.2.1.trans h1.2.2.2.1, h2.2.2.2.2.1.trans h1.2.2.2.2.1,
      h2.2.2.2.2.2.trans h1.2.2.2.2.2⟩

theorem andThen_proj {α : Type} (g : St → α) (x : Except (ExitE × St) St)
    (f : St → Except (ExitE × St) St) (hf : ∀ s, g (stOf (f s)) = g s) :
    g (stOf (andThen x f)) = g (stOf x) := by
  cases x with
  | error es => rfl
  | ok s => simpa [andThen, stOf] using hf s

theorem openLogsSt_fields (env : Env) (s : St) :
    (openLogsSt env s).args = s.args ∧
    (openLogsSt env s).fs = s.fs ∧
    (openLogsSt env s).toBackup = s.toBackup ∧
    (openLogsSt env s).copyCalls = s.copyCalls ∧
    (openLogsSt env s).runLogLines = env.runLog0 ∧
    (openLogsSt env s).runLogPos = 0 ∧
    (openLogsSt env s).erroredFiles = env.erroredFiles0 ∧
    (openLogsSt env s).errorOpen = true :=
  ⟨rfl, rfl, rfl, rfl, rfl, rfl, rfl, rfl⟩

theorem seedRunLogSt_fields (s : St) :
    (seedRunLogSt s).args = s.args ∧
    (seedRunLogSt s).fs = s.fs ∧
    (seedRunLogSt s).toBackup = s.toBackup ∧
    (seedRunLogSt s).copyCalls = s.copyCalls ∧
    (seedRunLogSt s).erroredFiles = s.erroredFiles ∧
    (seedRunLogSt s).errorOpen = s.errorOpen ∧
    (seedRunLogSt s).runLogLines =
      (if s.runLogLines.isEmpty then [OLD_DUMMY_DATE_T] else s.runLogLines) ∧
    (seedRunLogSt s).runLogPos =
      (if s.runLogLines.isEmpty then 1 else s.runLogPos) := by
  unfold seedRunLogSt
  split_ifs <;> simp_all

theorem seedRetriesSt_fields (s : St) :
    (seedRetriesSt s).args = s.args ∧
    (seedRetriesSt s).fs = s.fs ∧
    (seedRetriesSt s).runLogLines = s.runLogLines ∧
    (seedRetriesSt s).runLogPos = s.runLogPos ∧
    (seedRetriesSt s).copyCalls = s.copyCalls ∧
    (seedRetriesSt s).errorOpen = s.errorOpen ∧
    (seedRetriesSt s).toBackup =
      (if s.erroredFiles.isEmpty then s.toBackup else s.erroredFiles) ∧
    (seedRetriesSt s).erroredFiles =
      (if s.erroredFiles.isEmpty then s.erroredFiles else []) := by
  unfold seedRetriesSt
  split_ifs <;> simp_all

theorem init_args (env : Env) (a : Args) :
    (stOf (initNB env a)).args = checkArgs a := by
  unfold initNB
  rw [andThen_proj (fun s => s.args)]
  · exact (checkData_frame env _).1
  · intro s
    refine ((mount_frame env _).1).trans ?_
    rw [(seedRetriesSt_fields _).1, (seedRunLogSt_fields _).1,
      (openLogsSt_fields env s).1]

theorem andThen_ok {x : Except (ExitE × St) St} {f : St → Except (ExitE × St) St}
    {st : St} (h : andThen x f = Except.ok st) :
    ∃ s1, x = Except.ok s1 ∧ f s1 = Except.ok st := by
  cases x with
  | error es => simp [andThen] at h
  | ok s1 => exact ⟨s1, rfl, h⟩

theorem init_ok_fields (env : Env) (a : Args) (st : St)
    (h : initNB env a = Except.ok st) :
    st.args = checkArgs a ∧
    st.fs = env.fs0 ∧
    st.runLogLines =
      (if env.runLog0.isEmpty then [OLD_DUMMY_DATE_T] else env.runLog0) ∧
    st.runLogPos = (if env.runLog0.isEmpty then 1 else 0) ∧
    st.toBackup = env.erroredFiles0 ∧
    st.erroredFiles = [] ∧
    st.copyCalls = [] ∧
    st.errorOpen = true := by
  unfold initNB at h
  obtain ⟨s1, hcd, hm⟩ := andThen_ok h
  have hcf := checkData_frame env
    { args := checkArgs a, fs := env.fs0, runLogLines := [], runLogPos := 0,
      errorOpen := false, errorLog := [], erroredFiles := [], toBackup := [],
      stderrLog := [], stdoutLog := [], copyCalls := [], mkdirCalls := [],
      cmdsRun := [] }
  rw [hcd] at hcf
  simp only [stOf] at hcf
  have hm' : mountBackupPartition env
      (seedRetriesSt (seedRunLogSt (openLogsSt env s1))) = Except.ok st := hm
  have hmf := mount_frame env (seedRetriesSt (seedRunLogSt (openLogsSt env s1)))
  rw [hm'] at hmf
  simp only [stOf] at hmf
  have hsr := seedRetriesSt_fields (seedRunLogSt (openLogsSt env s1))
  have hsl := seedRunLogSt_fields (openLogsSt env s1)
  have hol := openLogsSt_fields env s1
  have hrunL : (seedRetriesSt (seedRunLogSt (openLogsSt env s1))).runLogLines =
      (if env.runLog0.isEmpty then [OLD_DUMMY_DATE_T] else env.runLog0) := by
    rw [hsr.2.2.1, hsl.2.2.2.2.2.2.1, hol.2.2.2.2.1]
  have hrunP : (seedRetriesSt (seedRunLogSt (openLogsSt env s1))).runLogPos =
      (if env.runLog0.isEmpty then 1 else 0) := by
    rw [hsr.2.2.2.1, hsl.2.2.2.2.2.2.2, hol.2.2.2.2.1, hol.2.2.2.2.2.1]
  have herrF : (seedRunLogSt (openLogsSt env s1)).erroredFiles =
      env.erroredFiles0 := by
    rw [hsl.2.2.2.2.1, hol.2.2.2.2.2.2.1]
  have htb0 : (seedRunLogSt (openLogsSt env s1)).toBackup = s1.toBackup := by
    rw [hsl.2.2.1, hol.2.2.1]
  have htb : (seedRetriesSt (seedRunLogSt (openLogsSt env s1))).toBackup =
      env.erroredFiles0 := by
    rw [hsr.2.2.2.2.2.2.1, herrF, htb0, hcf.2.2.2.2.2.2.1]
    by_cases he : env.erroredFiles0.isEmpty
    · rw [if_pos he]
      exact (List.isEmpty_iff.mp he).symm
    · rw [if_neg he]
  have hef : (seedRetriesSt (seedRunLogSt (openLogsSt env s1))).erroredFiles =
      [] := by
    rw [hsr.2.2.2.2.2.2.2, herrF]
    by_cases he : env.erroredFiles0.isEmpty
    · rw [if_pos he]
      exact List.isEmpty_iff.mp he
    · rw [if_neg he]
  have hfs : (seedRetriesSt (seedRunLogSt (openLogsSt env s1))).fs = env.fs0 := by
    rw [hsr.2.1, hsl.2.1, hol.2.1, hcf.2.1]
  have hargs : (seedRetriesSt (seedRunLogSt (openLogsSt env s1))).args =
      checkArgs a := by
    rw [hsr.1, hsl.1, hol.1, hcf.1]
  have hcc : (seedRetriesSt (seedRunLogSt (openLogsSt env s1))).copyCalls = [] := by
    rw [hsr.2.2.2.2.1, hsl.2.2.2.1, hol.2.2.2.1, hcf.2.2.2.2.2.2.2.1]
  have hop : (seedRetriesSt (seedRunLogSt (openLogsSt env s1))).errorOpen =
      true := by
    rw [hsr.2.2.2.2.2.1, hsl.2.2.2.2.2.1, hol.2.2.2.2.2.2.2]
  exact ⟨hmf.1.trans hargs, hmf.2.1.trans hfs, hmf.2.2.1.trans hrunL,
    hmf.2.2.2.1.trans hrunP, hmf.2.2.2.2.2.2.1.trans htb,
    hmf.2.2.2.2.2.1.trans hef, hmf.2.2.2.2.2.2.2.1.trans hcc,
    hmf.2.2.2.2.1.trans hop⟩

theorem main_args (env : Env) (st : St) :
    (stOf (mainNB env st)).args = st.args := by
  simp only [mainNB]
  cases h : (st.runLogLines.drop st.runLogPos).getLast? with
  | none => simp [stOf]
  | some t =>
    simp only [stOf]
    unfold mainCopy
    exact (copyAll_frame env _ _).1

theorem tearDown_args (env : Env) (st : St) :
    (stOf (tearDownNB env st)).args = st.args := by
  unfold tearDownNB
  rw [andThen_proj (fun s => s.args)]
  · exact ((execDrop_frame env _ st).1)
  · intro s1
    rw [andThen_proj (fun s => s.args)]
    · exact ((execDrop_frame env _ s1).1)
    · intro s2
      simp only [stOf]
      split_ifs <;> rfl

/-- C6: after validation the configuration satisfies dryRun implies
verbose, and no phase of the run changes the configuration: the state of
every completed or aborted run still carries exactly checkArgs of the
initial arguments. -/
theorem c6_config_invariant (env : Env) (a : Args) :
    ((checkArgs a).dry_run = true → (checkArgs a).verbose = true) ∧
    (fullRun env a).st.args = checkArgs a := by
  constructor
  · intro h
    by_cases hd : a.dry_run = true
    · simp [checkArgs, hd]
    · simp [checkArgs, hd] at h
  · cases hInit : initNB env a with
    | error es =>
      obtain ⟨e, s⟩ := es
      have hI := init_args env a
      rw [hInit] at hI
      simp only [stOf] at hI
      simp [fullRun, hInit, hI]
    | ok s =>
      have hI := init_args env a
      rw [hInit] at hI
      simp only [stOf] at hI
      cases hMain : mainNB env s with
      | ok s1 =>
        have hM := main_args env s
        rw [hMain] at hM
        simp only [stOf] at hM
        cases hTear : tearDownNB env s1 with
        | error es2 =>
          obtain ⟨e2, s2⟩ := es2
          have hT := tearDown_args env s1
          rw [hTear] at hT
          simp only [stOf] at hT
          simp [fullRun, hInit, hMain, hTear, hT, hM, hI]
        | ok s2 =>
          have hT := tearDown_args env s1
          rw [hTear] at hT
          simp only [stOf] at hT
          simp [fullRun, hInit, hMain, hTear, hT, hM, hI]
      | error es1 =>
        obtain ⟨e1, s1⟩ := es1
        have hM := main_args env s
        rw [hMain] at hM
        simp only [stOf] at hM
        cases hTear : tearDownNB env s1 with
        | error es2 =>
          obtain ⟨e2, s2⟩ := es2
          have hT := tearDown_args env s1
          rw [hTear] at hT
          simp only [stOf] at hT
          simp [fullRun, hInit, hMain, hTear, hT, hM, hI]
        | ok s2 =>
          have hT := tearDown_args env s1
          rw [hTear] at hT
          simp only [stOf] at hT
          simp [fullRun, hInit, hMain, hTear, hT, hM, hI]

/-- Witness for C6 at a dry-run configuration in the baseline world. -/
theorem c6_config_invariant_witness :
    ((checkArgs { verbose := false, dry_run := true }).dry_run = true →
      (checkArgs { verbose := false, dry_run := true }).verbose = true) ∧
    (fullRun baseEnv { verbose := false, dry_run := true }).st.args =
      checkArgs { verbose := false, dry_run := true } :=
  c6_config_invariant baseEnv { verbose := false, dry_run := true }

/-- C7: a non-zero exit status of a spawned command (with the error log
open) appends the timestamped formatted record to the error log, prints
the same text to stderr, and exits the program with that status; the
command is spawned exactly once. -/
theorem c7_command_failure (env : Env) (st : St) (command : String)
    (hdry : st.args.dry_run = false) (hopen : st.errorOpen = true)
    (hcode : (env.runCmd command).code ≠ 0) :
    executeCommand env st command =
      Except.error (ExitE.code (env.runCmd command).code,
        { st with
          cmdsRun := st.cmdsRun ++ [command],
          errorLog := st.errorLog ++
            [ErrEntry.cmd env.nowStr command (strDropLastChar (env.runCmd command).err)],
          stderrLog := st.stderrLog ++
            [renderErr
              (ErrEntry.cmd env.nowStr command (strDropLastChar (env.runCmd command).err))] }) ∧
    renderErr (ErrEntry.cmd env.nowStr command (strDropLastChar (env.runCmd command).err)) =
      env.nowStr ++ ": \x27" ++ command ++ "\x27 returned the following error: \x27" ++
        strDropLastChar (env.runCmd command).err ++ "\x27" := by
  refine ⟨?_, rfl⟩
  simp [executeCommand, hdry, hopen, hcode]

/-- Witness for C7: a command failing with status 2 in a concrete state. -/
theorem c7_command_failure_witness :
    executeCommand envFail baseSt "mount -l" =
      Except.error (ExitE.code (envFail.runCmd "mount -l").code,
        { baseSt with
          cmdsRun := baseSt.cmdsRun ++ ["mount -l"],
          errorLog := baseSt.errorLog ++
            [ErrEntry.cmd envFail.nowStr "mount -l"
              (strDropLastChar (envFail.runCmd "mount -l").err)],
          stderrLog := baseSt.stderrLog ++
            [renderErr
              (ErrEntry.cmd envFail.nowStr "mount -l"
                (strDropLastChar (envFail.runCmd "mount -l").err))] }) ∧
    renderErr
        (ErrEntry.cmd envFail.nowStr "mount -l"
          (strDropLastChar (envFail.runCmd "mount -l").err)) =
      envFail.nowStr ++ ": \x27" ++ "mount -l" ++
        "\x27 returned the following error: \x27" ++
        strDropLastChar (envFail.runCmd "mount -l").err ++ "\x27" :=
  c7_command_failure envFail baseSt "mount -l" rfl rfl (by decide)

/-- Counterexample for C7 as stated: the lsblk probe of checkDataExists
runs before the logs are opened; when that command exits with status 2,
the program aborts with an AttributeError (writing to the not-yet-open
error log), appends nothing to the error log, and does not terminate
with the command exit status. -/
theorem c7_counterexample :
    initExit (initNB envFail argsReal) = some ExitE.attributeError ∧
    (envFail.runCmd "lsblk -l").code = 2 ∧
    (initExitSt (initNB envFail argsReal)).map St.errorLog = some [] ∧
    some ExitE.attributeError ≠ some (ExitE.code 2) := by
  refine ⟨by decide, by decide, by decide, by decide⟩

/-! Lemmas about single copy-loop iterations. -/

theorem copyStep_ignored (env : Env) (st : St) (src : String)
    (hig : ignoredFile src = true) : copyStep env st src = st := by
  simp [copyStep, hig]

theorem copyStep_progress (env : Env) (st : St) (src : String)
    (hig : ignoredFile src = false) (hdry : st.args.dry_run = false) :
    (copyStep env st src).errorLog.length + (copyStep env st src).copyCalls.length =
      st.errorLog.length + st.copyCalls.length + 1 := by
  have hpre := preSt_fields st src
  rw [copyStep_eq env st src hig hdry]
  have hfail := failPhase_fields env (preSt st src) src (mirrorPath src)
  split_ifs
  · rw [hfail.2.2.2.2.2.2.1, hfail.2.2.2.2.2.2.2.2.1, hpre.2.2.2.2.2.2.1,
      hpre.2.2.2.2.2.2.2.2.1]
    simp
    omega
  · simp only [hpre.2.2.2.2.2.2.1, hpre.2.2.2.2.2.2.2.2.1]
    simp
    omega

theorem copyStep_copyCalls (env : Env) (st : St) (src : String) :
    (copyStep env st src).copyCalls = st.copyCalls ∨
    (ignoredFile src = false ∧
      (copyStep env st src).copyCalls = st.copyCalls ++ [(src, mirrorPath src)]) := by
  have hpre := preSt_fields st src
  by_cases hig : ignoredFile src
  · exact Or.inl (by simp [copyStep, hig])
  · simp only [Bool.not_eq_true] at hig
    by_cases hdry : st.args.dry_run
    · rw [copyStep_eq_dry env st src hig hdry]
      exact Or.inl hpre.2.2.2.2.2.2.2.2.1
    · simp only [Bool.not_eq_true] at hdry
      rw [copyStep_eq env st src hig hdry]
      have hfail := failPhase_fields env (preSt st src) src (mirrorPath src)
      split_ifs
      · exact Or.inl (hfail.2.2.2.2.2.2.2.2.1.trans hpre.2.2.2.2.2.2.2.2.1)
      · refine Or.inr ⟨hig, ?_⟩
        show (preSt st src).copyCalls ++ [(src, mirrorPath src)] = _
        rw [hpre.2.2.2.2.2.2.2.2.1]

theorem copyStep_success_copyCalls (env : Env) (st : St) (src : String)
    (hig : ignoredFile src = false) (hdry : st.args.dry_run = false)
    (hok : env.copyFails src = false) :
    (copyStep env st src).copyCalls = st.copyCalls ++ [(src, mirrorPath src)] := by
  have hpre := preSt_fields st src
  rw [copyStep_eq env st src hig hdry, if_neg (by simp [hok])]
  show (preSt st src).copyCalls ++ [(src, mirrorPath src)] = _
  rw [hpre.2.2.2.2.2.2.2.2.1]

theorem copyStep_erroredFiles (env : Env) (st : St) (src : String)
    (hdry : st.args.dry_run = false) :
    (copyStep env st src).erroredFiles =
      st.erroredFiles ++
        (if ignoredFile src = false ∧ env.copyFails src = true ∧
            env.srcExists src = true then [src] else []) := by
  have hpre := preSt_fields st src
  by_cases hig : ignoredFile src
  · simp [copyStep_ignored env st src hig, hig]
  · simp only [Bool.not_eq_true] at hig
    rw [copyStep_eq env st src hig hdry]
    have hfail := failPhase_fields env (preSt st src) src (mirrorPath src)
    by_cases hf : env.copyFails src
    · rw [if_pos hf, hfail.2.2.2.2.2.2.2.1, hpre.2.2.2.2.2.2.2.1]
      by_cases hex : env.srcExists src
      · simp [hig, hf, hex]
      · simp only [Bool.not_eq_true] at hex
        simp [hig, hf, hex]
    · simp only [Bool.not_eq_true] at hf
      rw [if_neg (by simp [hf])]
      show (preSt st src).erroredFiles = _
      rw [hpre.2.2.2.2.2.2.2.1]
      simp [hig, hf]

theorem copyStep_failure_logs (env : Env) (st : St) (src : String)
    (hig : ignoredFile src = false) (hdry : st.args.dry_run = false)
    (hfail : env.copyFails src = true) :
    (copyStep env st src).errorLog =
      st.errorLog ++ [ErrEntry.copy env.nowStr (env.failMsg src) (mirrorPath src)] ∧
    (copyStep env st src).stderrLog =
      st.stderrLog ++
        [renderErr (ErrEntry.copy env.nowStr (env.failMsg src) (mirrorPath src))] := by
  have hpre := preSt_fields st src
  rw [copyStep_eq env st src hig hdry, if_pos hfail]
  have hf := failPhase_fields env (preSt st src) src (mirrorPath src)
  constructor
  · rw [hf.2.2.2.2.2.2.1, hpre.2.2.2.2.2.2.1]
  · rw [hf.2.2.2.2.2.2.2.2.2.1, hpre.2.2.2.2.2.2.2.2.2.1]

theorem copyStep_mono (env : Env) (st : St) (src : String) :
    (∀ x, x ∈ st.errorLog → x ∈ (copyStep env st src).errorLog) ∧
    (∀ x, x ∈ st.stderrLog → x ∈ (copyStep env st src).stderrLog) ∧
    (∀ x, x ∈ st.copyCalls → x ∈ (copyStep env st src).copyCalls) ∧
    (∀ x, x ∈ st.fs → x ∈ (copyStep env st src).fs) := by
  have hpre := preSt_fields st src
  by_cases hig : ignoredFile src
  · simp [copyStep_ignored env st src hig]
  · simp only [Bool.not_eq_true] at hig
    by_cases hdry : st.args.dry_run
    · rw [copyStep_eq_dry env st src hig hdry]
      rw [hpre.2.2.2.2.2.2.1, hpre.2.2.2.2.2.2.2.2.1, hpre.2.2.2.2.2.2.2.2.2.1,
        hpre.2.2.2.2.2.2.2.2.2.2.2]
      exact ⟨fun x h => h, fun x h => h, fun x h => h,
        fun x h => List.mem_append_left _ h⟩
    · simp only [Bool.not_eq_true] at hdry
      rw [copyStep_eq env st src hig hdry]
      have hf := failPhase_fields env (preSt st src) src (mirrorPath src)
      split_ifs
      · rw [hf.2.2.2.2.2.2.1, hf.2.2.2.2.2.2.2.2.2.1, hf.2.2.2.2.2.2.2.2.1,
          hf.2.2.2.2.2.2.2.2.2.2.2, hpre.2.2.2.2.2.2.1, hpre.2.2.2.2.2.2.2.2.1,
          hpre.2.2.2.2.2.2.2.2.2.1, hpre.2.2.2.2.2.2.2.2.2.2.2]
        exact ⟨fun x h => List.mem_append_left _ h,
          fun x h => List.mem_append_left _ h,
          fun x h => h,
          fun x h => List.mem_append_left _ h⟩
      · show (∀ x, x ∈ st.errorLog → x ∈ (preSt st src).errorLog) ∧ _
        rw [hpre.2.2.2.2.2.2.1, hpre.2.2.2.2.2.2.2.2.2.1]
        constructor
        · exact fun x h => h
        constructor
        · exact fun x h => h
        constructor
        · intro x h
          show x ∈ (preSt st src).copyCalls ++ [(src, mirrorPath src)]
          rw [hpre.2.2.2.2.2.2.2.2.1]
          exact List.mem_append_left _ h
        · intro x h
          show x ∈ (preSt st src).fs ++ [mirrorPath src]
          rw [hpre.2.2.2.2.2.2.2.2.2.2.2]
          exact List.mem_append_left _ (List.mem_append_left _ h)

theorem copyAll_mono (env : Env) (srcs : List String) :
    ∀ st : St,
      (∀ x, x ∈ st.errorLog → x ∈ (copyAll env st srcs).errorLog) ∧
      (∀ x, x ∈ st.stderrLog → x ∈ (copyAll env st srcs).stderrLog) ∧
      (∀ x, x ∈ st.copyCalls → x ∈ (copyAll env st srcs).copyCalls) ∧
      (∀ x, x ∈ st.fs → x ∈ (copyAll env st srcs).fs) := by
  induction srcs with
  | nil => intro st; exact ⟨fun x h => h, fun x h => h, fun x h => h, fun x h => h⟩
  | cons s rest ih =>
    intro st
    have h1 := copyStep_mono env st s
    have h2 := ih (copyStep env st s)
    simp only [copyAll, List.foldl_cons] at h2 ⊢
    exact ⟨fun x h => h2.1 x (h1.1 x h),
      fun x h => h2.2.1 x (h1.2.1 x h),
      fun x h => h2.2.2.1 x (h1.2.2.1 x h),
      fun x h => h2.2.2.2 x (h1.2.2.2 x h)⟩

theorem copyAll_count (env : Env) (src : String) :
    ∀ (srcs : List String) (st : St), st.args.dry_run = false →
      (copyAll env st srcs).erroredFiles.count src =
        st.erroredFiles.count src +
          (if ignoredFile src = false ∧ env.copyFails src = true ∧
              env.srcExists src = true then srcs.count src else 0) := by
  intro srcs
  induction srcs with
  | nil => intro st _; simp [copyAll]
  | cons y rest ih =>
    intro st hdry
    have hdry2 : (copyStep env st y).args.dry_run = false := by
      rw [(copyStep_frame env st y).1]; exact hdry
    simp only [copyAll, List.foldl_cons] at ih ⊢
    rw [ih (copyStep env st y) hdry2, copyStep_erroredFiles env st y hdry]
    rw [List.count_append]
    by_cases hy : y = src
    · subst hy
      by_cases hcond : (ignoredFile y = false ∧ env.copyFails y = true ∧
          env.srcExists y = true)
      · simp [hcond, List.count_cons]
        all_goals omega
      · simp [hcond, List.count_cons]
    · by_cases hcond : (ignoredFile y = false ∧ env.copyFails y = true ∧
          env.srcExists y = true)
      · by_cases hcond2 : (ignoredFile src = false ∧ env.copyFails src = true ∧
            env.srcExists src = true)
        · simp [hcond, hcond2, List.count_cons, hy]
        · simp [hcond, hcond2, List.count_cons, hy]
      · by_cases hcond2 : (ignoredFile src = false ∧ env.copyFails src = true ∧
            env.srcExists src = true)
        · simp [hcond, hcond2, List.count_cons, hy]
        · simp [hcond, hcond2, List.count_cons, hy]

theorem copyAll_copies (env : Env) :
    ∀ (srcs : List String) (st : St), st.args.dry_run = false →
      ∀ y ∈ srcs, ignoredFile y = false → env.copyFails y = false →
        (y, mirrorPath y) ∈ (copyAll env st srcs).copyCalls := by
  intro srcs
  induction srcs with
  | nil => intro st _ y hy; cases hy
  | cons z rest ih =>
    intro st hdry y hy higy hoky
    have hdry2 : (copyStep env st z).args.dry_run = false := by
      rw [(copyStep_frame env st z).1]; exact hdry
    simp only [copyAll, List.foldl_cons] at ih ⊢
    rcases List.mem_cons.mp hy with hyz | hyr
    · subst hyz
      have hc := copyStep_success_copyCalls env st y higy hdry hoky
      have hm := (copyAll_mono env rest (copyStep env st y)).2.2.1
      apply hm
      rw [hc]
      simp
    · exact ih (copyStep env st z) hdry2 y hyr higy hoky

theorem copyAll_error_entry (env : Env) :
    ∀ (srcs : List String) (st : St), st.args.dry_run = false →
      ∀ y ∈ srcs, ignoredFile y = false → env.copyFails y = true →
        ErrEntry.copy env.nowStr (env.failMsg y) (mirrorPath y) ∈
          (copyAll env st srcs).errorLog ∧
        renderErr (ErrEntry.copy env.nowStr (env.failMsg y) (mirrorPath y)) ∈
          (copyAll env st srcs).stderrLog := by
  intro srcs
  induction srcs with
  | nil => intro st _ y hy; cases hy
  | cons z rest ih =>
    intro st hdry y hy higy hfy
    have hdry2 : (copyStep env st z).args.dry_run = false := by
      rw [(copyStep_frame env st z).1]; exact hdry
    simp only [copyAll, List.foldl_cons] at ih ⊢
    rcases List.mem_cons.mp hy with hyz | hyr
    · subst hyz
      have hc := copyStep_failure_logs env st y higy hdry hfy
      have hm := copyAll_mono env rest (copyStep env st y)
      constructor
      · apply hm.1
        rw [hc.1]; simp
      · apply hm.2.1
        rw [hc.2]; simp
    · exact ih (copyStep env st z) hdry2 y hyr higy hfy

theorem copyAll_ignored_not_copied (env : Env) (src : String)
    (hig : ignoredFile src = true) :
    ∀ (srcs : List String) (st : St),
      (∀ y ∈ srcs, ignoredFile y = false → mirrorPath y ≠ mirrorPath src) →
      mirrorPath src ∉ st.copyCalls.map Prod.snd →
      mirrorPath src ∉ (copyAll env st srcs).copyCalls.map Prod.snd := by
  intro srcs
  induction srcs with
  | nil => intro st _ h; simpa [copyAll] using h
  | cons y rest ih =>
    intro st hal h
    simp only [copyAll, List.foldl_cons] at ih ⊢
    apply ih (copyStep env st y) (fun z hz => hal z (List.mem_cons_of_mem _ hz))
    rcases copyStep_copyCalls env st y with hc | ⟨higy, hc⟩
    · rwa [hc]
    · rw [hc]
      simp only [List.map_append, List.mem_append]
      rintro (hmem | hmem)
      · exact h hmem
      · simp only [List.map_cons, List.map_nil, List.mem_singleton] at hmem
        exact hal y (List.mem_cons_self y rest) higy hmem.symm

/-- C9: in a real (non-dry) run, a copy-loop iteration leaves the state
completely unchanged iff the file has an ignored extension; and the copy
pass never writes a destination file at the mirror path of an ignored
file (given the mirror paths of the non-ignored entries do not collide
with it), so an ignored file absent from the destination stays absent. -/
theorem c9_skip_iff_ignored (env : Env) (st : St) (srcs : List String)
    (src : String) (hdry : st.args.dry_run = false) :
    (copyStep env st src = st ↔ ignoredFile src = true) ∧
    (ignoredFile src = true →
      (∀ y ∈ srcs, ignoredFile y = false → mirrorPath y ≠ mirrorPath src) →
      mirrorPath src ∉ st.copyCalls.map Prod.snd →
      mirrorPath src ∉ (copyAll env st srcs).copyCalls.map Prod.snd) := by
  constructor
  · constructor
    · intro heq
      by_contra hig
      have hig' : ignoredFile src = false := by
        cases h : ignoredFile src
        · rfl
        · exact absurd h hig
      have hp := copyStep_progress env st src hig' hdry
      rw [heq] at hp
      omega
    · intro hig
      exact copyStep_ignored env st src hig
  · intro hig hal h
    exact copyAll_ignored_not_copied env src hig srcs st hal h

/-- Witness for C9 with an ignored file and a distinct ordinary file. -/
theorem c9_skip_iff_ignored_witness :
    (copyStep baseEnv baseSt pPart = baseSt ↔ ignoredFile pPart = true) ∧
    (ignoredFile pPart = true →
      (∀ y ∈ [pTxt], ignoredFile y = false → mirrorPath y ≠ mirrorPath pPart) →
      mirrorPath pPart ∉ baseSt.copyCalls.map Prod.snd →
      mirrorPath pPart ∉ (copyAll baseEnv baseSt [pTxt]).copyCalls.map Prod.snd) :=
  c9_skip_iff_ignored baseEnv baseSt [pTxt] pPart rfl

/-- C10 (amended): for a non-skipped file the copy destination is the
source path with every occurrence of the source root replaced by the
mirror root; the directory passed to makedirs is the destination with
every occurrence of its final path component deleted; it is created
exactly when it does not exist yet, exists afterwards (creation is
modelled total, as with exist_ok=True), and a successful copy for the
file is recorded with that destination. -/
theorem c10_dest_and_mkdir (env : Env) (st : St) (src : String)
    (hig : ignoredFile src = false) (hdry : st.args.dry_run = false) :
    mirrorPath src = strReplace src NEXTCLOUD_DATA NEXTCLOUD_DATA_BACKUP ∧
    destPathOf (mirrorPath src) =
      strReplace (mirrorPath src) (lastComponent (mirrorPath src)) "" ∧
    (copyStep env st src).mkdirCalls =
      st.mkdirCalls ++
        (if st.fs.contains (destPathOf (mirrorPath src)) then []
         else [destPathOf (mirrorPath src)]) ∧
    destPathOf (mirrorPath src) ∈ (copyStep env st src).fs ∧
    (env.copyFails src = false →
      (copyStep env st src).copyCalls = st.copyCalls ++ [(src, mirrorPath src)]) := by
  have hpre := preSt_fields st src
  have hf := failPhase_fields env (preSt st src) src (mirrorPath src)
  have hstepMk : (copyStep env st src).mkdirCalls = (preSt st src).mkdirCalls := by
    rw [copyStep_eq env st src hig hdry]
    split_ifs
    · exact hf.2.2.2.2.2.2.2.2.2.2.1
    · rfl
  have hstepFs : ∀ x, x ∈ (preSt st src).fs → x ∈ (copyStep env st src).fs := by
    intro x hx
    rw [copyStep_eq env st src hig hdry]
    split_ifs
    · rw [hf.2.2.2.2.2.2.2.2.2.2.2]
      exact hx
    · exact List.mem_append_left _ hx
  have hmemPre : destPathOf (mirrorPath src) ∈ (preSt st src).fs := by
    rw [hpre.2.2.2.2.2.2.2.2.2.2.2]
    by_cases hc : st.fs.contains (destPathOf (mirrorPath src))
    · exact List.mem_append_left _ (by simpa using hc)
    · simp only [Bool.not_eq_true] at hc
      rw [hc]
      simp
  refine ⟨rfl, rfl, ?_, ?_, ?_⟩
  · rw [hstepMk, hpre.2.2.2.2.2.2.2.2.2.2.1]
  · exact hstepFs _ hmemPre
  · intro hok
    exact copyStep_success_copyCalls env st src hig hdry hok

/-- Witness for C10 on an ordinary file in the baseline state. -/
theorem c10_dest_and_mkdir_witness :
    mirrorPath pTxt = strReplace pTxt NEXTCLOUD_DATA NEXTCLOUD_DATA_BACKUP ∧
    destPathOf (mirrorPath pTxt) =
      strReplace (mirrorPath pTxt) (lastComponent (mirrorPath pTxt)) "" ∧
    (copyStep baseEnv baseSt pTxt).mkdirCalls =
      baseSt.mkdirCalls ++
        (if baseSt.fs.contains (destPathOf (mirrorPath pTxt)) then []
         else [destPathOf (mirrorPath pTxt)]) ∧
    destPathOf (mirrorPath pTxt) ∈ (copyStep baseEnv baseSt pTxt).fs ∧
    (baseEnv.copyFails pTxt = false →
      (copyStep baseEnv baseSt pTxt).copyCalls =
        baseSt.copyCalls ++ [(pTxt, mirrorPath pTxt)]) :=
  c10_dest_and_mkdir baseEnv baseSt pTxt (by decide) rfl

/-- Counterexample for C10 as stated: for the file a inside directory a,
the directory the program creates is not the destination parent (every
occurrence of the final component a is deleted, mangling the path), the
actual parent is neither created nor existing, yet the copy is still
attempted; and for a path containing the source root twice, the computed
destination differs from replacing only the leading source-root prefix. -/
theorem c10_counterexample :
    ignoredFile pAA = false ∧
    mirrorPath pAA = "/mnt/nextcloud_backup/a/a" ∧
    specParentDir (mirrorPath pAA) = "/mnt/nextcloud_backup/a/" ∧
    (copyAll baseEnv baseSt [pAA]).mkdirCalls = ["/mnt/nextcloud_bckup//"] ∧
    specParentDir (mirrorPath pAA) ∉ (copyAll baseEnv baseSt [pAA]).mkdirCalls ∧
    specParentDir (mirrorPath pAA) ∉ (copyAll baseEnv baseSt [pAA]).fs ∧
    (copyAll baseEnv baseSt [pAA]).copyCalls = [(pAA, "/mnt/nextcloud_backup/a/a")] ∧
    mirrorPath pNested = "/mnt/nextcloud_backup/backup/mnt/nextcloud_backup/f.txt" ∧
    specMirrorRoot pNested = "/mnt/nextcloud_backup/backup/var/www/nextcloud/data/f.txt" ∧
    mirrorPath pNested ≠ specMirrorRoot pNested := by
  refine ⟨by decide, by decide, by decide, by decide, by decide, by decide,
    by decide, by decide, by decide, by decide⟩

/-- C3 (amended): in a real run, for a file occurring once in the change
set whose copy fails, the pending-retry log afterwards holds exactly one
entry for it iff the source still exists at failure time (one entry is
appended per failing occurrence in general); a timestamped error record
carrying the destination path is in the error log and its text on
stderr; and every other non-ignored file whose copy succeeds is still
copied, so the failure is non-fatal. -/
theorem c3_retry_iff_exists (env : Env) (st : St) (srcs : List String)
    (src : String) (hdry : st.args.dry_run = false)
    (honce : srcs.count src = 1) (hig : ignoredFile src = false)
    (hfail : env.copyFails src = true)
    (hbase : st.erroredFiles.count src = 0) :
    ((copyAll env st srcs).erroredFiles.count src = 1 ↔ env.srcExists src = true) ∧
    ErrEntry.copy env.nowStr (env.failMsg src) (mirrorPath src) ∈
      (copyAll env st srcs).errorLog ∧
    renderErr (ErrEntry.copy env.nowStr (env.failMsg src) (mirrorPath src)) ∈
      (copyAll env st srcs).stderrLog ∧
    (∀ y ∈ srcs, ignoredFile y = false → env.copyFails y = false →
      (y, mirrorPath y) ∈ (copyAll env st srcs).copyCalls) := by
  have hmem : src ∈ srcs := by
    rw [← List.count_pos_iff]
    omega
  have hcnt := copyAll_count env src srcs st hdry
  refine ⟨?_, ?_, ?_, ?_⟩
  · rw [hcnt, hbase]
    constructor
    · intro h
      by_contra hne
      have hne' : env.srcExists src = false := by
        cases hx : env.srcExists src
        · rfl
        · exact absurd hx hne
      simp [hig, hfail, hne'] at h
    · intro hex
      simp [hig, hfail, hex, honce]
  · exact (copyAll_error_entry env srcs st hdry src hmem hig hfail).1
  · exact (copyAll_error_entry env srcs st hdry src hmem hig hfail).2
  · intro y hy higy hoky
    exact copyAll_copies env srcs st hdry y hy higy hoky

/-- Witness for C3 with one failing file and one succeeding file. -/
theorem c3_retry_iff_exists_witness :
    ((copyAll envOneFail baseSt [pTxt, pTxt2]).erroredFiles.count pTxt = 1 ↔
      envOneFail.srcExists pTxt = true) ∧
    ErrEntry.copy envOneFail.nowStr (envOneFail.failMsg pTxt) (mirrorPath pTxt) ∈
      (copyAll envOneFail baseSt [pTxt, pTxt2]).errorLog ∧
    renderErr (ErrEntry.copy envOneFail.nowStr (envOneFail.failMsg pTxt)
        (mirrorPath pTxt)) ∈
      (copyAll envOneFail baseSt [pTxt, pTxt2]).stderrLog ∧
    (∀ y ∈ [pTxt, pTxt2], ignoredFile y = false → envOneFail.copyFails y = false →
      (y, mirrorPath y) ∈ (copyAll envOneFail baseSt [pTxt, pTxt2]).copyCalls) :=
  c3_retry_iff_exists envOneFail baseSt [pTxt, pTxt2] pTxt rfl (by decide)
    (by decide) (by decide) (by decide)

/-- Counterexample for C3 as stated: a file that occurs twice in the
change set (as happens when a pending retry is also rediscovered by the
walk) and fails both times appears twice, not exactly once, in the
pending-retry log, although it still exists on disk. -/
theorem c3_counterexample :
    (copyAll envCopyFail baseSt [pTxt, pTxt]).erroredFiles = [pTxt, pTxt] ∧
    envCopyFail.srcExists pTxt = true ∧
    (copyAll envCopyFail baseSt [pTxt, pTxt]).erroredFiles.count pTxt = 2 := by
  refine ⟨by decide, by decide, by decide⟩

/-- C4: when initialization succeeds, toBackup holds exactly the lines
the pending-retry log contained at startup (an empty log leaves it
empty), and the pending-retry log is empty immediately afterwards. -/
theorem c4_retry_seed (env : Env) (a : Args) (st : St)
    (h : initNB env a = Except.ok st) :
    st.toBackup = env.erroredFiles0 ∧ st.erroredFiles = [] :=
  ⟨(init_ok_fields env a st h).2.2.2.2.1,
    (init_ok_fields env a st h).2.2.2.2.2.1⟩

/-- Witness for C4 with a one-line pending-retry log. -/
theorem c4_retry_seed_witness :
    stInitRetry.toBackup = envRetry.erroredFiles0 ∧
    stInitRetry.erroredFiles = [] :=
  c4_retry_seed envRetry argsReal stInitRetry (by rfl)

/-- C2, evaluated at the failing input: on a very first run the run log
is seeded with the sentinel and is no longer empty, but the readlines
position of the handle is past the written line, so main crashes with
IndexError and no file enters the change set even though the source
tree is non-empty; the claimed sentinel read and full-tree inclusion
never happen. -/
theorem c2_first_run_index_error :
    (initNB envFirstRun argsReal).toOption.map St.runLogLines =
      some [OLD_DUMMY_DATE_T] ∧
    (initNB envFirstRun argsReal).toOption.map St.runLogPos = some 1 ∧
    (fullRun envFirstRun argsReal).exit = some ExitE.indexError ∧
    (fullRun envFirstRun argsReal).st.toBackup = [] ∧
    (fullRun envFirstRun argsReal).st.copyCalls = [] ∧
    envFirstRun.walkFiles ≠ [] := by
  refine ⟨by decide, by decide, by decide, by decide, by decide, by decide⟩

/-- C5, evaluated at the failing input: with dry run set (the device
being present in the output lsblk would give), initialization exits
with the partition error message without having spawned any command, so
the walk, the change-set computation and the copy phase are never
reached. -/
theorem c5_dry_run_exits_at_partition_check :
    initExit (initNB baseEnv argsDry) = some (ExitE.msg msgPartitionMissing) ∧
    (initExitSt (initNB baseEnv argsDry)).map St.cmdsRun = some [] ∧
    strContains (strDropLastChar (baseEnv.runCmd "lsblk -l").out) partitionName =
      true ∧
    (checkArgs argsDry).dry_run = true ∧
    (fullRun baseEnv argsDry).exit = some (ExitE.msg msgPartitionMissing) := by
  refine ⟨by decide, by decide, by decide, by decide, by decide⟩

/-! Lemmas for the two-run property. -/

theorem checkArgs_dry (a : Args) : (checkArgs a).dry_run = a.dry_run := by
  unfold checkArgs
  split_ifs <;> rfl

theorem mem_contains {l : List String} {a : String} (h : a ∈ l) :
    l.contains a = true := by
  simpa using h

theorem computeToBackup_none (t : Int) (fs : List String) :
    ∀ (walk : List (String × Int)) (acc : List String),
      (∀ pm ∈ walk,
        (decide (t < pm.2) || !(fs.contains (mirrorPath pm.1))) = false) →
      computeToBackup walk t fs acc = acc := by
  intro walk
  induction walk with
  | nil => intro acc _; rfl
  | cons hd tl ih =>
    intro acc hall
    obtain ⟨p, m⟩ := hd
    simp only [computeToBackup]
    rw [if_neg (by
      rw [hall (p, m) (List.mem_cons_self _ _)]
      exact Bool.false_ne_true)]
    exact ih acc (fun pm hpm => hall pm (List.mem_cons_of_mem _ hpm))

theorem copyStep_nofail_erroredFiles (env : Env) (st : St) (src : String)
    (hok : env.copyFails src = false) :
    (copyStep env st src).erroredFiles = st.erroredFiles := by
  by_cases hig : ignoredFile src
  · rw [copyStep_ignored env st src hig]
  · simp only [Bool.not_eq_true] at hig
    by_cases hdry : st.args.dry_run
    · rw [copyStep_eq_dry env st src hig hdry]
      exact (preSt_fields st src).2.2.2.2.2.2.2.1
    · simp only [Bool.not_eq_true] at hdry
      rw [copyStep_eq env st src hig hdry, if_neg (by simp [hok])]
      show (preSt st src).erroredFiles = _
      exact (preSt_fields st src).2.2.2.2.2.2.2.1

theorem copyAll_nofail_erroredFiles (env : Env)
    (hfail : ∀ s, env.copyFails s = false) :
    ∀ (srcs : List String) (st : St),
      (copyAll env st srcs).erroredFiles = st.erroredFiles := by
  intro srcs
  induction srcs with
  | nil => intro st; rfl
  | cons y rest ih =>
    intro st
    simp only [copyAll, List.foldl_cons] at ih ⊢
    rw [ih (copyStep env st y), copyStep_nofail_erroredFiles env st y (hfail y)]

theorem copyStep_success_fs (env : Env) (st : St) (src : String)
    (hig : ignoredFile src = false) (hdry : st.args.dry_run = false)
    (hok : env.copyFails src = false) :
    mirrorPath src ∈ (copyStep env st src).fs := by
  rw [copyStep_eq env st src hig hdry, if_neg (by simp [hok])]
  show mirrorPath src ∈ (preSt st src).fs ++ [mirrorPath src]
  simp

theorem copyAll_mirror_fs (env : Env) :
    ∀ (srcs : List String) (st : St), st.args.dry_run = false →
      ∀ y ∈ srcs, ignoredFile y = false → env.copyFails y = false →
        mirrorPath y ∈ (copyAll env st srcs).fs := by
  intro srcs
  induction srcs with
  | nil => intro st _ y hy; cases hy
  | cons z rest ih =>
    intro st hdry y hy higy hoky
    have hdry2 : (copyStep env st z).args.dry_run = false := by
      rw [(copyStep_frame env st z).1]; exact hdry
    simp only [copyAll, List.foldl_cons] at ih ⊢
    rcases List.mem_cons.mp hy with hyz | hyr
    · subst hyz
      exact (copyAll_mono env rest (copyStep env st y)).2.2.2 _
        (copyStep_success_fs env st y higy hdry hoky)
    · exact ih (copyStep env st z) hdry2 y hyr higy hoky

theorem tearDown_ok_fields (env : Env) (st st' : St)
    (h : tearDownNB env st = Except.ok st') :
    st'.args = st.args ∧ st'.fs = st.fs ∧ st'.erroredFiles = st.erroredFiles ∧
    st'.toBackup = st.toBackup ∧
    st'.runLogLines =
      (if st.args.dry_run then st.runLogLines
       else st.runLogLines ++ [env.nowT]) := by
  unfold tearDownNB at h
  obtain ⟨s1, h1, h2⟩ := andThen_ok h
  have h2' : andThen (execDrop env ("hdparm -y " ++ NEXTCLOUD_BACKUP_PARTITION) s1)
      (fun s2 => Except.ok
        (if s2.args.dry_run then s2
         else { s2 with runLogLines := s2.runLogLines ++ [env.nowT],
                        runLogPos := s2.runLogPos + 1 })) = Except.ok st' := h2
  obtain ⟨s2, h3, h4⟩ := andThen_ok h2'
  have hf1 := execDrop_frame env ("umount " ++ NEXTCLOUD_BACKUP_PARTITION) st
  rw [h1] at hf1
  simp only [stOf] at hf1
  have hf2 := execDrop_frame env ("hdparm -y " ++ NEXTCLOUD_BACKUP_PARTITION) s1
  rw [h3] at hf2
  simp only [stOf] at hf2
  have hargs : s2.args = st.args := hf2.1.trans hf1.1
  have hrl : s2.runLogLines = st.runLogLines := hf2.2.2.1.trans hf1.2.2.1
  have hfs : s2.fs = st.fs := hf2.2.1.trans hf1.2.1
  have hef : s2.erroredFiles = st.erroredFiles := hf2.2.2.2.2.2.1.trans hf1.2.2.2.2.2.1
  have htb : s2.toBackup = st.toBackup := hf2.2.2.2.2.2.2.1.trans hf1.2.2.2.2.2.2.1
  have h4' : Except.ok (α := St) (ε := ExitE × St)
      (if s2.args.dry_run then s2
       else { s2 with runLogLines := s2.runLogLines ++ [env.nowT],
                      runLogPos := s2.runLogPos + 1 }) = Except.ok st' := h4
  have hst' : st' =
      (if s2.args.dry_run then s2
       else { s2 with runLogLines := s2.runLogLines ++ [env.nowT],
                      runLogPos := s2.runLogPos + 1 }) := by
    injection h4' with hx
    exact hx.symm
  by_cases hd : st.args.dry_run
  · have hd2 : s2.args.dry_run = true := by rw [hargs]; exact hd
    rw [hst', if_pos hd2]
    exact ⟨hargs, hfs, hef, htb, by rw [hrl, if_pos hd]⟩
  · simp only [Bool.not_eq_true] at hd
    have hd2 : s2.args.dry_run = false := by rw [hargs]; exact hd
    rw [hst', if_neg (by simp [hd2])]
    refine ⟨hargs, hfs, hef, htb, ?_⟩
    rw [hd]
    simp only [Bool.false_eq_true, if_false]
    show s2.runLogLines ++ [env.nowT] = _
    rw [hrl]

/-- C8 (amended): if a real run completes cleanly, every copy succeeds,
every source file has mtime at most the committed timestamp, and no
source file has an ignored extension, then a second run over the same
tree and the persisted artifacts computes an empty change set, its
retry seed is empty, and an empty change set produces no copy calls.
(An ignored-extension file without a mirrored counterpart would re-enter
every change set, which is why the no-ignored-files hypothesis is
needed.) -/
theorem c8_second_run_empty (env1 : Env) (a : Args) (st1 : St)
    (hdry : a.dry_run = false)
    (h1 : fullRun env1 a = { exit := none, st := st1 })
    (hfail : ∀ s, env1.copyFails s = false)
    (hmt : ∀ pm ∈ env1.walkFiles, pm.2 ≤ env1.nowT)
    (hig : ∀ pm ∈ env1.walkFiles, ignoredFile pm.1 = false) :
    nextRunChangeSet st1.runLogLines st1.erroredFiles env1.walkFiles st1.fs =
      some [] ∧
    st1.erroredFiles = [] ∧
    (∀ (env2 : Env) (st2 : St), (copyAll env2 st2 []).copyCalls = st2.copyCalls) := by
  unfold fullRun at h1
  cases hInit : initNB env1 a with
  | error es =>
    obtain ⟨e, s⟩ := es
    rw [hInit] at h1
    simp at h1
  | ok s0 =>
    rw [hInit] at h1
    dsimp only at h1
    have hF := init_ok_fields env1 a s0 hInit
    have hdry0 : s0.args.dry_run = false := by
      rw [hF.1, checkArgs_dry]; exact hdry
    cases hMain : mainNB env1 s0 with
    | error es =>
      obtain ⟨e, sE⟩ := es
      rw [hMain] at h1
      dsimp only at h1
      cases hT : tearDownNB env1 sE with
      | error es2 =>
        obtain ⟨e2, s2⟩ := es2
        rw [hT] at h1
        simp at h1
      | ok s2 =>
        rw [hT] at h1
        simp at h1
    | ok sM =>
      rw [hMain] at h1
      dsimp only at h1
      cases hT : tearDownNB env1 sM with
      | error es2 =>
        obtain ⟨e2, s2⟩ := es2
        rw [hT] at h1
        simp at h1
      | ok s2 =>
        rw [hT] at h1
        simp only [Outcome.mk.injEq] at h1
        have hst1 : st1 = s2 := h1.2.symm
        subst hst1
        unfold mainNB at hMain
        cases hL : (s0.runLogLines.drop s0.runLogPos).getLast? with
        | none =>
          rw [hL] at hMain
          simp at hMain
        | some t0 =>
          rw [hL] at hMain
          simp only [Except.ok.injEq] at hMain
          have hMfs : ∀ pm ∈ env1.walkFiles, mirrorPath pm.1 ∈ sM.fs := by
            intro pm hpm
            rw [← hMain]
            unfold mainCopy
            by_cases hmem :
              pm.1 ∈ buildChangeSet env1.walkFiles t0 s0.fs s0.toBackup
            · exact copyAll_mirror_fs env1
                (buildChangeSet env1.walkFiles t0 s0.fs s0.toBackup) _
                (by exact hdry0) pm.1 hmem (hig pm hpm) (hfail pm.1)
            · have hnotadd :
                  pm.1 ∉ computeToBackup env1.walkFiles t0 s0.fs [] := by
                intro hadd
                apply hmem
                unfold buildChangeSet
                rw [computeToBackup_acc]
                exact List.mem_append_right _ hadd
              have hcond :
                  ¬(t0 < pm.2 ∨ s0.fs.contains (mirrorPath pm.1) = false) := by
                intro hc
                exact hnotadd ((mem_computeToBackup t0 s0.fs pm.1
                  env1.walkFiles).mpr ⟨pm.2, by simpa using hpm, hc⟩)
              push_neg at hcond
              have hcont : s0.fs.contains (mirrorPath pm.1) = true := by
                cases hx : s0.fs.contains (mirrorPath pm.1)
                · exact absurd hx hcond.2
                · rfl
              have hmemfs : mirrorPath pm.1 ∈ s0.fs := by simpa using hcont
              exact (copyAll_mono env1
                (buildChangeSet env1.walkFiles t0 s0.fs s0.toBackup) _).2.2.2
                _ hmemfs
          have hMef : sM.erroredFiles = [] := by
            rw [← hMain]
            unfold mainCopy
            rw [copyAll_nofail_erroredFiles env1 hfail]
            exact hF.2.2.2.2.2.1
          have hMrl : sM.runLogLines = s0.runLogLines := by
            rw [← hMain]
            unfold mainCopy
            exact (copyAll_frame env1 _ _).2.1
          have hMargs : sM.args = s0.args := by
            rw [← hMain]
            unfold mainCopy
            exact (copyAll_frame env1 _ _).1
          have hTf := tearDown_ok_fields env1 sM st1 hT
          have hdryM : sM.args.dry_run = false := by rw [hMargs]; exact hdry0
          have h1ef : st1.erroredFiles = [] := hTf.2.2.1.trans hMef
          have h1fs : ∀ pm ∈ env1.walkFiles, mirrorPath pm.1 ∈ st1.fs := by
            intro pm hpm
            rw [hTf.2.1]
            exact hMfs pm hpm
          have h1rl : st1.runLogLines = sM.runLogLines ++ [env1.nowT] := by
            rw [hTf.2.2.2.2, if_neg (by simp [hdryM])]
          refine ⟨?_, h1ef, fun env2 st2 => rfl⟩
          unfold nextRunChangeSet
          rw [h1rl, List.getLast?_concat, h1ef]
          simp only [Option.map_some']
          unfold buildChangeSet
          rw [computeToBackup_none]
          intro pm hpm
          have hnlt : decide (env1.nowT < pm.2) = false :=
            decide_eq_false (by
              have := hmt pm hpm
              omega)
          rw [hnlt, mem_contains (h1fs pm hpm)]
          rfl

/-- Witness for C8: one modified file, copied by the first run. -/
theorem c8_second_run_empty_witness :
    nextRunChangeSet stTwoRuns.runLogLines stTwoRuns.erroredFiles
      envTwoRuns.walkFiles stTwoRuns.fs = some [] ∧
    stTwoRuns.erroredFiles = [] ∧
    (∀ (env2 : Env) (st2 : St), (copyAll env2 st2 []).copyCalls = st2.copyCalls) :=
  c8_second_run_empty envTwoRuns argsReal stTwoRuns rfl (by rfl)
    (fun s => rfl) (by decide) (by decide)

/-- Counterexample for C8 as stated: a run over a tree holding only an
unmirrored ignored-extension file completes cleanly with every copy
succeeding (nothing is copied), yet the second change set equals the
first and is not empty. -/
theorem c8_counterexample :
    (fullRun envIgnoredOnly argsReal).exit = none ∧
    (∀ s, envIgnoredOnly.copyFails s = false) ∧
    (fullRun envIgnoredOnly argsReal).st.erroredFiles = [] ∧
    nextRunChangeSet (fullRun envIgnoredOnly argsReal).st.runLogLines
      (fullRun envIgnoredOnly argsReal).st.erroredFiles
      envIgnoredOnly.walkFiles
      (fullRun envIgnoredOnly argsReal).st.fs =
      some [NEXTCLOUD_DATA ++ "u/v.part"] ∧
    some [NEXTCLOUD_DATA ++ "u/v.part"] ≠ some ([] : List String) := by
  refine ⟨by decide, fun s => rfl, by decide, by decide, by decide⟩

end NB
